import Mathlib

/-!
Shallow embedding of the `preprocess-input-media` pipeline (device/media
classification, timestamp resolution, filename synthesis, batch orchestration)
and proofs about it.  Python string primitives are re-implemented on `List Char`
so that every definition is executable and kernel-reducible.
-/

deriving instance DecidableEq for Except

namespace Media

/-- ASCII lowercasing of one character, as Python `str.lower` acts on ASCII. -/
def charLower (c : Char) : Char :=
  if 65 ≤ c.toNat ∧ c.toNat ≤ 90 then Char.ofNat (c.toNat + 32) else c

/-- ASCII uppercase test, as Python `str.isupper` on one ASCII character. -/
def charIsUpper (c : Char) : Bool :=
  65 ≤ c.toNat && c.toNat ≤ 90

/-- Python `str.lower` (restricted to ASCII case mapping). -/
def strLower (s : String) : String :=
  ⟨s.data.map charLower⟩

/-- Characters Python `str.strip()` removes by default. -/
def pySpaceChar (c : Char) : Bool :=
  c == ' ' || c == '\t' || c == '\n' || c == '\x0d' || c == '\x0b' || c == '\x0c'

/-- Python `str.strip()` with no argument. -/
def pyStrip (s : String) : String :=
  ⟨((s.data.dropWhile pySpaceChar).reverse.dropWhile pySpaceChar).reverse⟩

/-- Boolean list-prefix test (`begins pat l` holds when `pat` starts `l`). -/
def begins : List Char → List Char → Bool
  | [], _ => true
  | _ :: _, [] => false
  | a :: p, b :: l => a == b && begins p l

/-- Boolean substring occurrence test: does `pat` occur contiguously in `l`? -/
def containsTok : List Char → List Char → Bool
  | l, pat =>
    match l with
    | [] => pat.isEmpty
    | _ :: rest => begins pat l || containsTok rest pat

/-- Python `pat in s` substring test on strings. -/
def strContains (s pat : String) : Bool :=
  containsTok s.data pat.data

/-- Counts occurrences of a character, as Python `s.count(c)` for one char. -/
def countChar (s : String) (c : Char) : Nat :=
  s.data.countP (fun d => d == c)

/-- Fuelled splitter underlying `pySplit`; the fuel is an upper bound on the
length of the list being split, so it never runs out. -/
def splitFuel (sep : List Char) : Nat → List Char → List Char → List (List Char)
  | _, acc, [] => [acc.reverse]
  | 0, acc, l => [acc.reverse ++ l]
  | fuel + 1, acc, c :: rest =>
    if begins sep (c :: rest) then
      acc.reverse :: splitFuel sep fuel [] ((c :: rest).drop sep.length)
    else
      splitFuel sep fuel (c :: acc) rest

/-- Python `s.split(sep)` for a non-empty separator `sep`. -/
def pySplit (s sep : String) : List String :=
  if sep.data.isEmpty then [s]
  else (splitFuel sep.data s.data.length [] s.data).map (fun l => ⟨l⟩)

/-- Python `s.split(sep, 1)`: split only at the first occurrence. -/
def pySplitOnce (s sep : String) : List String :=
  match pySplit s sep with
  | [] => [s]
  | [x] => [x]
  | x :: rest => [x, String.intercalate sep rest]

/-- Python `sep.join(parts)`. -/
def pyJoin (sep : String) (parts : List String) : String :=
  String.intercalate sep parts

/-- Fuelled replace underlying `pyReplace`; `p :: pat` is the (non-empty)
pattern, so every recursive call strictly shrinks the list and the fuel
(initialised to the list length) never runs out. -/
def replaceFuel (p : Char) (pat rep : List Char) : Nat → List Char → List Char
  | _, [] => []
  | 0, l => l
  | fuel + 1, c :: rest =>
    if begins (p :: pat) (c :: rest) then
      rep ++ replaceFuel p pat rep fuel ((c :: rest).drop (p :: pat).length)
    else
      c :: replaceFuel p pat rep fuel rest

/-- Python `s.replace(pat, rep)` (all non-overlapping occurrences, left to
right) for a non-empty pattern; with an empty pattern the source never calls
it, and we return `s` unchanged. -/
def pyReplace (s pat rep : String) : String :=
  match pat.data with
  | [] => s
  | p :: ps => ⟨replaceFuel p ps rep.data s.data.length s.data⟩

/-- Python `str.startswith`. -/
def pyStartswith (s pre : String) : Bool :=
  begins pre.data s.data

/-- Python `s.isdigit()` restricted to ASCII digits: non-empty and all digits. -/
def pyIsDigit (s : String) : Bool :=
  !s.data.isEmpty && s.data.all Char.isDigit

/-- Numeric value of a list of ASCII digit characters. -/
def digitsToNat (l : List Char) : Nat :=
  l.foldl (fun acc c => acc * 10 + (c.toNat - 48)) 0

/-- Python `int(s)` on a string: optional surrounding whitespace, optional
sign, then one or more digits; anything else raises (here: `none`). -/
def pyInt? (s : String) : Option Int := do
  let t := (pyStrip s).data
  match t with
  | '+' :: rest =>
    if rest ≠ [] ∧ rest.all Char.isDigit then some (digitsToNat rest) else none
  | '-' :: rest =>
    if rest ≠ [] ∧ rest.all Char.isDigit then some (-(digitsToNat rest : Int)) else none
  | rest =>
    if rest ≠ [] ∧ rest.all Char.isDigit then some (digitsToNat rest) else none

/-- Python `float(s)` on a plain decimal string (optional sign, digits with at
most one point, at least one digit); the value is kept exactly as a rational. -/
def pyFloat? (s : String) : Option Rat :=
  let t := (pyStrip s).data
  let core := fun (l : List Char) (sign : Int) =>
    let intPart := l.takeWhile Char.isDigit
    let rest := l.drop intPart.length
    match rest with
    | [] => if intPart ≠ [] then some (sign * (digitsToNat intPart : Int) : Rat) else none
    | '.' :: frac =>
      if frac.all Char.isDigit ∧ (intPart ≠ [] ∨ frac ≠ []) then
        some ((sign : Rat) *
          ((digitsToNat intPart : Rat) + (digitsToNat frac : Rat) / ((10 : Rat) ^ frac.length)))
      else none
    | _ => none
  match t with
  | '+' :: rest => core rest 1
  | '-' :: rest => core rest (-1)
  | rest => core rest 1

/-- Python `int(x)` on a float: truncation toward zero. -/
def pyTrunc (q : Rat) : Int :=
  if q < 0 then -((-q).floor) else q.floor

/-- Zero-pads the decimal representation of a natural number to width `w`,
like Python `'%0*d'` for non-negative values. -/
def padZeros (w : Nat) (n : Nat) : String :=
  let s := toString n
  ⟨List.replicate (w - s.length) '0' ++ s.data⟩

/-- Python `f"{i:06d}"` for an integer. -/
def pyFormat06d (i : Int) : String :=
  if i < 0 then ⟨'-' :: (padZeros 5 (-i).toNat).data⟩ else padZeros 6 i.toNat

/-!  Metadata bags.  `exiftool -json -g1` hands the pipeline a dictionary whose
values are scalars or nested group dictionaries; we model a value as a string
or a dictionary, a dictionary being a spine of `cons` cells ending in `nil`
(association order preserved, keys unique in practice, first match wins on
lookup as in a Python dict). -/

inductive MetaVal where
  | str (s : String) : MetaVal
  | nil : MetaVal
  | cons (key : String) (value : MetaVal) (rest : MetaVal) : MetaVal
deriving DecidableEq

/-- Builds a dictionary-shaped `MetaVal` from an association list. -/
def mkBag : List (String × MetaVal) → MetaVal
  | [] => .nil
  | (k, v) :: rest => .cons k v (mkBag rest)

/-- Python `d.get(k)` on a dictionary value (`none` on a scalar). -/
def MetaVal.get : MetaVal → String → Option MetaVal
  | .str _, _ => none
  | .nil, _ => none
  | .cons k v rest, key => if k = key then some v else rest.get key

/-- Python `k in d` key-membership test on a dictionary. -/
def MetaVal.hasKey (m : MetaVal) (key : String) : Bool :=
  (m.get key).isSome

/-- Python `k in x` where `x` may be a dictionary (key membership) or a string
(substring test), as the source applies `in` to unvalidated metadata values. -/
def MetaVal.pyIn (m : MetaVal) (key : String) : Bool :=
  match m with
  | .str s => strContains s key
  | _ => m.hasKey key

/-- Python `isinstance(v, dict)`. -/
def MetaVal.isDict : MetaVal → Bool
  | .str _ => false
  | _ => true

/-- Python `isinstance(v, str)`. -/
def MetaVal.isStr : MetaVal → Bool
  | .str _ => true
  | _ => false

/-- Python truthiness of a metadata value: empty strings and empty
dictionaries are falsy. -/
def MetaVal.truthy : MetaVal → Bool
  | .str s => !s.isEmpty
  | .nil => false
  | .cons _ _ _ => true

/-- Python `str(v)` for a metadata value; the dictionary case stands for the
repr of a dict, which never parses as a date or matches a device code. -/
def MetaVal.pyStr : MetaVal → String
  | .str s => s
  | _ => "<dict>"

/-- The string content of a metadata value when it is a string. -/
def MetaVal.asStr : MetaVal → Option String
  | .str s => some s
  | _ => none

/-- Key prefixing used by `_flatten_metadata`: `f"{prefix}:{key}" if prefix
else key`. -/
def mkKey (pre k : String) : String :=
  if pre = "" then k else pre ++ ":" ++ k

/-- The `for k, v in value.items()` loop inside `_flatten_metadata` that also
adds a nested dictionary's non-dict entries under `newKey:k`. -/
def directAdds (newKey : String) : MetaVal → List (String × MetaVal)
  | .cons k v rest =>
    (if v.isDict then [] else [(mkKey newKey k, v)]) ++ directAdds newKey rest
  | _ => []

/-- Embeds `_flatten_metadata(metadata, result, prefix)` from `timestamp_utils.py`,
as the chronological list of writes into `result`; a later write to the same
key overwrites an earlier one, which `writesGet` accounts for. -/
def flattenWrites (pre : String) : MetaVal → List (String × MetaVal)
  | .str _ => []
  | .nil => []
  | .cons k v rest =>
    (match v with
     | .str s => [(mkKey pre k, .str s)]
     | d => flattenWrites (mkKey pre k) d ++ directAdds (mkKey pre k) d)
    ++ flattenWrites pre rest

/-- Python dict lookup on a chronological write list: the value of the last
write to the key, if any. -/
def writesGet : List (String × MetaVal) → String → Option MetaVal
  | [], _ => none
  | (k, v) :: rest, key =>
    match writesGet rest key with
    | some r => some r
    | none => if k = key then some v else none

/-- Python `k in d` on a chronological write list. -/
def writesHas (ws : List (String × MetaVal)) (key : String) : Bool :=
  (writesGet ws key).isSome

/-!  Time.  A time zone is the system-local zone (`tzlocal()`), a fixed
UTC offset in minutes, or a named zone (expressible in claims, never produced
by the code because `datetime.timezone.gettz` does not exist).  The system
zone's numeric offset is a property of the machine, irrelevant to every claim;
the model fixes it at 0 minutes. -/

inductive Tz where
  | local : Tz
  | offset (minutes : Int) : Tz
  | named (name : String) : Tz
deriving DecidableEq

/-- UTC offset in minutes attached to a zone; the system-local zone is
modelled with offset 0 (no claim depends on its actual value). -/
def Tz.minutes : Tz → Int
  | .local => 0
  | .offset m => m
  | .named _ => 0

/-- Calendar datetime; `tz = none` is a naive instant, exactly as a Python
`datetime` with `tzinfo=None`. -/
structure DateTime where
  year : Nat
  month : Nat
  day : Nat
  hour : Nat
  minute : Nat
  second : Nat
  tz : Option Tz
deriving DecidableEq

/-- Gregorian leap-year rule. -/
def isLeap (y : Nat) : Bool :=
  (y % 4 == 0 && y % 100 != 0) || y % 400 == 0

/-- Days in a month as `datetime` validates them. -/
def daysInMonth (y m : Nat) : Nat :=
  if m = 2 then (if isLeap y then 29 else 28)
  else if m = 4 ∨ m = 6 ∨ m = 9 ∨ m = 11 then 30
  else 31

/-- The `datetime(...)` constructor: validates every field (raising
`ValueError`, here `none`, out of range). -/
def mkDatetime? (y mo d h mi s : Nat) (tz : Option Tz) : Option DateTime :=
  if 1 ≤ y ∧ y ≤ 9999 ∧ 1 ≤ mo ∧ mo ≤ 12 ∧ 1 ≤ d ∧ d ≤ daysInMonth y mo ∧
     h ≤ 23 ∧ mi ≤ 59 ∧ s ≤ 59 then
    some ⟨y, mo, d, h, mi, s, tz⟩
  else none

/-- The calendar day after a date. -/
def nextDay (dt : DateTime) : DateTime :=
  if dt.day < daysInMonth dt.year dt.month then { dt with day := dt.day + 1 }
  else if dt.month < 12 then { dt with month := dt.month + 1, day := 1 }
  else { dt with year := dt.year + 1, month := 1, day := 1 }

/-- The calendar day before a date. -/
def prevDay (dt : DateTime) : DateTime :=
  if 1 < dt.day then { dt with day := dt.day - 1 }
  else if 1 < dt.month then
    { dt with month := dt.month - 1, day := daysInMonth dt.year (dt.month - 1) }
  else { dt with year := dt.year - 1, month := 12, day := daysInMonth (dt.year - 1) 12 }

/-- Shifts an aware datetime by a whole number of minutes with |shift| below
one day, as needed when converting between zones. -/
def DateTime.addMinutes (dt : DateTime) (delta : Int) : DateTime :=
  let total : Int := (dt.hour : Int) * 60 + (dt.minute : Int) + delta
  if total < 0 then
    let t := (total + 1440).toNat
    { prevDay dt with hour := t / 60, minute := t % 60 }
  else if total < 1440 then
    let t := total.toNat
    { dt with hour := t / 60, minute := t % 60 }
  else
    let t := (total - 1440).toNat
    { nextDay dt with hour := t / 60, minute := t % 60 }

/-- Python `dt.astimezone(target)` on an aware datetime: shift the clock by
the difference of UTC offsets and retag; on a naive datetime the source never
calls it through the paths modelled here. -/
def DateTime.astimezone (dt : DateTime) (target : Tz) : DateTime :=
  match dt.tz with
  | none => dt
  | some cur => { dt.addMinutes (target.minutes - cur.minutes) with tz := some target }

/-- Reads exactly `n` ASCII digits from the front of a list, returning their
value and the remainder. -/
def takeDigits : Nat → List Char → Option (Nat × List Char)
  | 0, l => some (0, l)
  | n + 1, c :: rest =>
    if c.isDigit then
      match takeDigits n rest with
      | some (v, rem) => some ((c.toNat - 48) * 10 ^ n + v, rem)
      | none => none
    else none
  | _ + 1, [] => none

/-- Parses a `±HH:MM` UTC-offset suffix into signed minutes. -/
def parseOffsetTok (l : List Char) : Option Int := do
  let (sign, rest) ←
    match l with
    | '+' :: r => some ((1 : Int), r)
    | '-' :: r => some ((-1 : Int), r)
    | _ => none
  let (h, rest) ← takeDigits 2 rest
  match rest with
  | ':' :: rest => do
    let (m, rest) ← takeDigits 2 rest
    if rest.isEmpty then some (sign * (h * 60 + m)) else none
  | _ => none

/-- Parses a `YYYY-MM-DD` date token (digit groups; ranges are validated by
the `datetime` constructor afterwards). -/
def parseDateTok (l : List Char) : Option (Nat × Nat × Nat) := do
  let (y, rest) ← takeDigits 4 l
  match rest with
  | '-' :: rest => do
    let (mo, rest) ← takeDigits 2 rest
    match rest with
    | '-' :: rest => do
      let (d, rest) ← takeDigits 2 rest
      if rest.isEmpty then some (y, mo, d) else none
    | _ => none
  | _ => none

/-- Parses an `HH:MM:SS[.fff][±HH:MM]` time token into hour, minute, second
(fraction truncated) and an optional UTC offset. -/
def parseTimeTok (l : List Char) : Option (Nat × Nat × Nat × Option Int) := do
  let (h, rest) ← takeDigits 2 l
  match rest with
  | ':' :: rest => do
    let (mi, rest) ← takeDigits 2 rest
    match rest with
    | ':' :: rest => do
      let (s, rest) ← takeDigits 2 rest
      let rest :=
        match rest with
        | '.' :: r => r.dropWhile Char.isDigit
        | r => r
      match rest with
      | [] => some (h, mi, s, none)
      | r => do
        let off ← parseOffsetTok r
        some (h, mi, s, some off)
    | _ => none
  | _ => none

/-- The date `datetime.now()` supplies for the fields a parsed string does
not determine (dateutil's default): the date of the run, an arbitrary but
fixed value in the model — no claim depends on it. -/
def dateutilToday : Nat × Nat × Nat := (2026, 10, 12)

/-- Recognises a token of exactly three colon-separated digit groups, the
`YYYY:MM:DD` shape that dateutil reads as a clock time `H:M:S` instead of a
date. -/
def isColonNumericTok (l : List Char) : Bool :=
  let parts := splitFuel [':'] l.length [] l
  parts.length == 3 && parts.all (fun p => !p.isEmpty && p.all Char.isDigit)

/-- Model of `dateutil.parser.parse` restricted to the date-string shapes
this pipeline produces.
A `YYYY-MM-DD` token parses as that date, optionally combined with one
following `HH:MM:SS[.fff][±HH:MM]` token.
A colon-separated `YYYY:MM:DD` token is read by dateutil as a clock time
`H:M:S`: alone it makes the hour `YYYY` and raises `ValueError` (here
`none`) — the reason the source rewrites colon dates to dashes — but
followed by a full `HH:MM:SS[...]` token every field it set is *silently
overwritten* by the time token (dateutil's known no-guard overwrite), so the
result is the run date (`dateutilToday`) at that time, naive unless the time
token carries an offset.  A bare time token likewise yields the run date at
that time.  Other shapes are rejected (none arises at the claims'
inputs). -/
def dateutilParse (s : String) : Option DateTime :=
  match (pySplit s " ").map String.data with
  | [d] =>
    match parseDateTok d with
    | some (y, mo, dd) => mkDatetime? y mo dd 0 0 0 none
    | none => do
      let (h, mi, sec, off) ← parseTimeTok d
      mkDatetime? dateutilToday.1 dateutilToday.2.1 dateutilToday.2.2 h mi sec
        (off.map Tz.offset)
  | [d, t] => do
    let (h, mi, sec, off) ← parseTimeTok t
    match parseDateTok d with
    | some (y, mo, dd) => mkDatetime? y mo dd h mi sec (off.map Tz.offset)
    | none =>
      if isColonNumericTok d then
        mkDatetime? dateutilToday.1 dateutilToday.2.1 dateutilToday.2.2 h mi sec
          (off.map Tz.offset)
      else none
  | _ => none

/-!  `timestamp_utils.extract_timestamp_from_filename`: three regular
expressions tried in order with `re.search` (leftmost match); a match whose
numbers do not form a valid `datetime` falls through to the next pattern. -/

/-- Leftmost-occurrence search: applies the matcher at every suffix, earliest
start first, exactly as `re.search` scans. -/
def searchAt {α : Type} (f : List Char → Option α) : List Char → Option α
  | [] => f []
  | c :: rest =>
    match f (c :: rest) with
    | some v => some v
    | none => searchAt f rest

/-- Matches `DJI_(\d{4})(\d{2})(\d{2})(\d{2})(\d{2})(\d{2})_` at this
position. -/
def matchDJIAt (l : List Char) : Option (Nat × Nat × Nat × Nat × Nat × Nat) :=
  if begins (String.data "DJI_") l then do
    let (y, r) ← takeDigits 4 (l.drop 4)
    let (mo, r) ← takeDigits 2 r
    let (d, r) ← takeDigits 2 r
    let (h, r) ← takeDigits 2 r
    let (mi, r) ← takeDigits 2 r
    let (s, r) ← takeDigits 2 r
    match r with
    | '_' :: _ => some (y, mo, d, h, mi, s)
    | _ => none
  else none

/-- Matches `screen-(\d{4})(\d{2})(\d{2})-(\d{2})(\d{2})(\d{2})` at this
position. -/
def matchScreenAt (l : List Char) : Option (Nat × Nat × Nat × Nat × Nat × Nat) :=
  if begins (String.data "screen-") l then do
    let (y, r) ← takeDigits 4 (l.drop 7)
    let (mo, r) ← takeDigits 2 r
    let (d, r) ← takeDigits 2 r
    match r with
    | '-' :: r => do
      let (h, r) ← takeDigits 2 r
      let (mi, r) ← takeDigits 2 r
      let (s, _) ← takeDigits 2 r
      some (y, mo, d, h, mi, s)
    | _ => none
  else none

/-- A greedy optional one-character class `[cls]?`: try consuming first, then
backtrack to not consuming, as the regex engine does. -/
def optSep {α : Type} (cls : List Char) (l : List Char) (k : List Char → Option α) : Option α :=
  match l with
  | c :: rest =>
    if cls.contains c then
      match k rest with
      | some v => some v
      | none => k l
    else k l
  | [] => k l

/-- Matches the generic pattern
`(\d{4})[-_]?(\d{2})[-_]?(\d{2})[-_T]?(\d{2})[-_:]?(\d{2})[-_:]?(\d{2})` at
this position. -/
def matchGenericAt (l : List Char) : Option (Nat × Nat × Nat × Nat × Nat × Nat) := do
  let (y, r) ← takeDigits 4 l
  optSep ['-', '_'] r fun r => do
    let (mo, r) ← takeDigits 2 r
    optSep ['-', '_'] r fun r => do
      let (d, r) ← takeDigits 2 r
      optSep ['-', '_', 'T'] r fun r => do
        let (h, r) ← takeDigits 2 r
        optSep ['-', '_', ':'] r fun r => do
          let (mi, r) ← takeDigits 2 r
          optSep ['-', '_', ':'] r fun r => do
            let (s, _) ← takeDigits 2 r
            some (y, mo, d, h, mi, s)

/-- Builds the `datetime(..., tzinfo=tzlocal())` value from a pattern's six
groups, `none` when the constructor would raise `ValueError`. -/
def groupsToLocal (g : Nat × Nat × Nat × Nat × Nat × Nat) : Option DateTime :=
  mkDatetime? g.1 g.2.1 g.2.2.1 g.2.2.2.1 g.2.2.2.2.1 g.2.2.2.2.2 (some .local)

/-- Embeds `extract_timestamp_from_filename` from `timestamp_utils.py`. -/
def extractTimestampFromFilename (filename : String) : Option DateTime :=
  let l := filename.data
  match (searchAt matchDJIAt l).bind groupsToLocal with
  | some dt => some dt
  | none =>
    match (searchAt matchScreenAt l).bind groupsToLocal with
    | some dt => some dt
    | none => (searchAt matchGenericAt l).bind groupsToLocal

/-!  `timestamp_utils.extract_timestamp_from_metadata`.  The QuickTime
special-handling block reassigns the local name `timezone_str`, shadowing the
function's parameter; the shadowed value is what the later
`timezone_str == 'local'` comparison sees, which the embedding threads
explicitly.  Indexing a string-valued `QuickTime` entry raises an uncaught
`TypeError`, modelled as `Except.error`. -/

/-- Model of `datetime.timezone.gettz`: the attribute does not exist, the
call raises `AttributeError`, and the bare `except` falls back to
`tzlocal()`; hence no named zone is ever produced. -/
def timezoneGettz (_ : String) : Option Tz := none

/-- The timezone object computed at the top of
`extract_timestamp_from_metadata`. -/
def resolveTzArg (timezoneStr : String) : Tz :=
  if timezoneStr = "local" then Tz.local
  else
    match timezoneGettz timezoneStr with
    | some t => t
    | none => Tz.local

/-- The four QuickTime date fields the special block copies into the
flattened view. -/
def qtFields : List String := ["CreateDate", "ModifyDate", "TrackCreateDate", "MediaCreateDate"]

/-- One pass of the QuickTime special block: threads the flattened write list
and the (shadowed) `timezone_str` through the `for qt_field in [...]` loop. -/
def qtLoop (qt : MetaVal) : List String → List (String × MetaVal) → Option String →
    Except Unit (List (String × MetaVal) × Option String)
  | [], flat, sh => .ok (flat, sh)
  | f :: rest, flat, sh =>
    if qt.pyIn f then
      match qt with
      | .str _ => .error ()
      | _ =>
        let sh' : Option String :=
          match qt.get "TimeZone" with
          | some (.str s) => some s
          | _ => none
        let qtv : MetaVal :=
          match qt.get "TimeZone" with
          | some (.str s) => .str (((qt.get f).getD .nil).pyStr ++ s)
          | _ => (qt.get f).getD .nil
        let flat := flat ++ [("QuickTime:" ++ f, qtv)]
        let flat := if writesHas flat f then flat else flat ++ [(f, qtv)]
        qtLoop qt rest flat sh'
    else qtLoop qt rest flat sh

/-- The QuickTime special block (lines 102–124 of `timestamp_utils.py`). -/
def qtBlock (metadata : MetaVal) (flat : List (String × MetaVal)) (timezoneStr : String) :
    Except Unit (List (String × MetaVal) × Option String) :=
  match metadata.get "QuickTime" with
  | none => .ok (flat, some timezoneStr)
  | some qt => qtLoop qt qtFields flat (some timezoneStr)

/-- The ordered list of timestamp fields tried by
`extract_timestamp_from_metadata`. -/
def timestampFields : List String :=
  ["ExifIFD:DateTimeOriginal", "IFD0:ModifyDate", "System:FileModifyDate",
   "QuickTime:CreateDate", "Track1:TrackCreateDate",
   "SubSecDateTimeOriginal", "SubSecCreateDate", "SubSecModifyDate",
   "DateTimeOriginal", "CreateDate", "ModifyDate",
   "EXIF:DateTimeOriginal", "EXIF:CreateDate", "EXIF:ModifyDate",
   "Composite:SubSecDateTimeOriginal", "Composite:SubSecCreateDate",
   "Composite:SubSecModifyDate",
   "QuickTime:MediaCreateDate", "QuickTime:TrackCreateDate", "QuickTime:ModifyDate",
   "XML:CreationDate", "XML:LastUpdate",
   "FileModifyDate", "File:FileModifyDate",
   "MediaCreateDate", "TrackCreateDate",
   "CreationDateValue", "CreationTime"]

/-- The separate UTC-offset fields searched when a parsed instant is naive. -/
def offsetFields : List String :=
  ["OffsetTimeOriginal", "OffsetTime", "TimeZoneOffset",
   "EXIF:OffsetTimeOriginal", "EXIF:OffsetTime"]

/-- Parses one offset-field value the way the source does:
`int(offset[1:3])` hours, `int(offset[4:])` minutes when long enough, sign
from `offset[0] == '+'`; any failure raises and is caught (`none`). -/
def parseOffsetField (off : String) : Option Tz :=
  match off.data with
  | [] => none
  | c0 :: _ => do
    let h ← pyInt? ⟨(off.data.drop 1).take 2⟩
    let m ← if off.data.length > 4 then pyInt? ⟨off.data.drop 4⟩ else some 0
    some (if c0 = '+' then Tz.offset (h * 60 + m) else Tz.offset (-(h * 60 + m)))

/-- The `for offset_field in offset_fields` loop: first offset field whose
value parses wins. -/
def tryOffsetFields (flat : List (String × MetaVal)) (metadata : MetaVal) :
    List String → Option Tz
  | [] => none
  | f :: rest =>
    let ov :=
      match writesGet flat f with
      | some v => some v
      | none => metadata.get f
    match ov with
    | some (.str s) =>
      if s.isEmpty then tryOffsetFields flat metadata rest
      else
        match parseOffsetField s with
        | some z => some z
        | none => tryOffsetFields flat metadata rest
    | _ => tryOffsetFields flat metadata rest

/-- The timezone handling of lines 137–169 applied to one parsed instant:
attach an offset-field zone or the configured zone when naive; convert to the
configured zone when aware and the (possibly shadowed) `timezone_str` still
reads `'local'`. -/
def applyTimezonePolicy (flat : List (String × MetaVal)) (metadata : MetaVal) (tz : Tz)
    (sh : Option String) (dt : DateTime) : DateTime :=
  match dt.tz with
  | none =>
    match tryOffsetFields flat metadata offsetFields with
    | some z => { dt with tz := some z }
    | none => { dt with tz := some tz }
  | some _ =>
    if sh = some "local" then dt.astimezone tz else dt

/-- The `for field in timestamp_fields` loop: first field whose value parses
wins, the timezone policy applied to the parsed instant; `sh` is the
(possibly shadowed) `timezone_str` the `== 'local'` comparison sees. -/
def tryTimestampFields (parse : String → Option DateTime) (flat : List (String × MetaVal))
    (metadata : MetaVal) (tz : Tz) (sh : Option String) : List String → Option DateTime
  | [] => none
  | field :: rest =>
    let tsv :=
      match writesGet flat field with
      | some v => some v
      | none => metadata.get field
    match tsv with
    | some (.str s) =>
      if s.isEmpty then tryTimestampFields parse flat metadata tz sh rest
      else
        match parse s with
        | some dt => some (applyTimezonePolicy flat metadata tz sh dt)
        | none => tryTimestampFields parse flat metadata tz sh rest
    | _ => tryTimestampFields parse flat metadata tz sh rest

/-- Embeds `extract_timestamp_from_metadata` from `timestamp_utils.py`,
parameterised by the date parser (`dateutil.parser.parse`). -/
def extractTimestampFromMetadata (parse : String → Option DateTime) (metadata : MetaVal)
    (timezoneStr : String) : Except Unit (Option DateTime) :=
  let tz := resolveTzArg timezoneStr
  let flat := flattenWrites "" metadata
  match qtBlock metadata flat timezoneStr with
  | .error e => .error e
  | .ok (flat, sh) =>
    match tryTimestampFields parse flat metadata tz sh timestampFields with
    | some dt => .ok (some dt)
    | none =>
      match metadata.get "File" with
      | some f =>
        if f.isDict ∧ f.hasKey "FileModifyDate" then
          match f.get "FileModifyDate" with
          | some (.str s) =>
            match parse s with
            | some dt =>
              .ok (some (if dt.tz = none then { dt with tz := some tz } else dt))
            | none => .ok none
          | _ => .ok none
        else .ok none
      | none => .ok none

/-- Embeds `get_formatted_timestamp`: `strftime('%Y%m%d')` and `strftime('%H%M%S')`. -/
def getFormattedTimestamp (dt : DateTime) : String × String :=
  (padZeros 4 dt.year ++ padZeros 2 dt.month ++ padZeros 2 dt.day,
   padZeros 2 dt.hour ++ padZeros 2 dt.minute ++ padZeros 2 dt.second)

/-!  `config.py`. -/

/-- One entry of `DEVICE_PATTERNS`: filename substrings and
metadata-field substring patterns for a device. -/
structure DevicePattern where
  device : String
  filenamePatterns : List String
  metadataPatterns : List (String × List String)

/-- The `DEVICE_PATTERNS` table from `config.py`, in declaration order. -/
def DEVICE_PATTERNS : List DevicePattern :=
  [⟨"dji_drone", ["DJI_", "Mavic3Pro"],
    [("make", ["Hasselblad", "DJI"]), ("model", ["L2D-20c", "Mavic3Pro"]),
     ("product_name", ["DJIMavic3Pro"]), ("manufacturer", ["DJI"])]⟩,
   ⟨"sony_camera", ["DSC"],
    [("make", ["SONY"]), ("model", ["ILCE-7M4"]),
     ("devicemanufacturer", ["Sony"]), ("devicemodelname", ["ILCE-7M4"])]⟩,
   ⟨"dji_rc_pro", ["screen-", "RCPro"],
    [("make", ["DJI"]), ("model", ["RCPro"])]⟩]

/-- The `EXTENSION_MAPPING` table from `config.py`. -/
def EXTENSION_MAPPING : List (String × String) :=
  [(".jpeg", ".jpg"), (".dng", ".dng"), (".arw", ".arw"), (".mp4", ".mp4")]

/-- The `FILENAME_PATTERNS` table from `config.py`: the output template for a
(device, media) pair, falling back to the `'default'` entry. -/
def FILENAME_PATTERNS (device media : Option String) : String :=
  match device, media with
  | some "dji_drone", some "image" =>
    "\x7bdate\x7d-\x7btime\x7d-\x7bsequence\x7d-DJI-\x7bmodel\x7d-\x7bfocal_length\x7d\x7bext\x7d"
  | some "dji_drone", some "video" =>
    "\x7bdate\x7d-\x7btime\x7d-\x7bresolution\x7d-\x7bfps\x7d-\x7bduration\x7d-DJI-\x7bmodel\x7d\x7bext\x7d"
  | some "sony_camera", some "image" =>
    "\x7bdate\x7d-\x7btime\x7d-\x7bshutter_count\x7d-\x7bmake\x7d-\x7bmodel\x7d\x7bext\x7d"
  | some "sony_camera", some "video" =>
    "\x7bdate\x7d-\x7btime\x7d-\x7bresolution\x7d-\x7bfps\x7d-\x7bduration\x7d-\x7bmake\x7d-\x7bmodel\x7d\x7bext\x7d"
  | some "dji_rc_pro", some "video" =>
    "\x7bdate\x7d-\x7btime\x7d-\x7bresolution\x7d-\x7bfps\x7d-\x7bduration\x7d-\x7bmake\x7d-\x7bmodel\x7d\x7bext\x7d"
  | _, _ =>
    "\x7bdate\x7d-\x7btime\x7d-\x7bmake\x7d-\x7bmodel\x7d\x7bext\x7d"

/-!  `file_utils.py`. -/

/-- Embeds `pathlib.PurePath.suffix` of a file name: the part from the last dot,
provided that dot is neither the first nor the last character. -/
def pathSuffix (name : String) : String :=
  let l := name.data
  match ((List.range l.length).filter
      (fun i => l.get? i = some '.' ∧ 0 < i ∧ i + 1 < l.length)).getLast? with
  | some i => ⟨l.drop i⟩
  | none => ""

/-- Embeds `get_normalized_extension`: lowercase, then `EXTENSION_MAPPING`. -/
def getNormalizedExtension (extension : String) : String :=
  let ext := strLower extension
  match EXTENSION_MAPPING.find? (fun p => p.1 == ext) with
  | some p => p.2
  | none => ext

/-- The media-type subfolder selection (`photos`/`videos`) that both
`create_output_directory` and the dry-run branch of `process_files`
perform. -/
def mediaFolder (baseDir : String) (mediaType : Option String) : String :=
  match mediaType with
  | some "image" => baseDir ++ "/photos"
  | some "video" => baseDir ++ "/videos"
  | _ => baseDir

/-- Embeds `create_output_directory`: the directory
`base[/photos|/videos]/YYYY/YYYY-MM/YYYY-MM-DD` (the `mkdir` side effect is
outside the model; the function's value is the path). -/
def createOutputDirectory (baseDir : String) (ts : DateTime) (mediaType : Option String) : String :=
  let y := padZeros 4 ts.year
  let m := padZeros 2 ts.month
  let d := padZeros 2 ts.day
  mediaFolder baseDir mediaType ++ "/" ++ y ++ "/" ++ (y ++ "-" ++ m) ++ "/" ++
    (y ++ "-" ++ m ++ "-" ++ d)

/-- Embeds `is_file_already_processed`: true when the output path already exists on
disk, otherwise whatever the tracking store answers for the source path (a
missing store is initialised and answers no; store errors answer no) — the two
booleans are the oracle results of those external checks. -/
def isFileAlreadyProcessed (outputPathExists dbHasSource : Bool) : Bool :=
  if outputPathExists then true else dbHasSource

/-!  `file_processor.FileProcessor._identify_device_type` and
`_identify_media_type`. -/

/-- First character of a Python string (the source indexes `filename[0]` only
on names that carry an extension, hence non-empty). -/
def headChar (s : String) : Char :=
  s.data.headD '\x00'

/-- Does one configured metadata value occur (case-insensitively) in the
metadata field's string value? -/
def valueMatches (mv : String) (values : List String) : Bool :=
  values.any (fun v => strContains (strLower mv) (strLower v))

/-- The metadata-pattern half of the rule-table scan for one device: tries
each configured field under its original and lowercased name, skipping falsy
values, matching configured substrings case-insensitively against string
values. -/
def metadataPatternsMatch (metadata : MetaVal) : List (String × List String) → Bool
  | [] => false
  | (field, values) :: rest =>
    let mv0 := metadata.get field
    let mv :=
      match mv0 with
      | some v => if v.truthy then some v else metadata.get (strLower field)
      | none => metadata.get (strLower field)
    match mv with
    | some v =>
      if v.truthy then
        (match v with
         | .str s => valueMatches s values
         | _ => false) || metadataPatternsMatch metadata rest
      else metadataPatternsMatch metadata rest
    | none => metadataPatternsMatch metadata rest

/-- The `for device, patterns in DEVICE_PATTERNS.items()` scan: first device
with a filename-substring or metadata-substring match wins. -/
def scanDevicePatterns (name : String) (metadata : MetaVal) : List DevicePattern → Option String
  | [] => none
  | p :: rest =>
    if p.filenamePatterns.any (fun pat => strContains name pat) ||
       metadataPatternsMatch metadata p.metadataPatterns then
      some p.device
    else scanDevicePatterns name metadata rest

/-- Embeds `_identify_device_type` from `file_processor.py`. -/
def identifyDeviceType (name : String) (metadata : MetaVal) : Option String :=
  let fileExt := strLower (pathSuffix name)
  let baseName := (pySplit name ".").headD ""
  if fileExt = ".mp4" ∧ headChar name = 'C' ∧ pyIsDigit ⟨baseName.data.drop 1⟩ then
    some "sony_camera"
  else if strContains name "DJI-Mavic3Pro" then some "dji_drone"
  else if strContains name "DJI-RCPro" then some "dji_rc_pro"
  else if strContains name "Sony-ILCE" then some "sony_camera"
  else
    match scanDevicePatterns name metadata DEVICE_PATTERNS with
    | some d => some d
    | none =>
      if fileExt = ".arw" then some "sony_camera"
      else if (fileExt = ".dng" ∨ fileExt = ".jpg" ∨ fileExt = ".jpeg" ∨ fileExt = ".mp4") ∧
              (strContains name "DJI" ∨ strContains name "FC43") then
        some "dji_drone"
      else if fileExt = ".mp4" ∧ (strContains name "Sony" ∨ strContains name "ILCE") then
        some "sony_camera"
      else none

/-- Embeds `_identify_media_type` from `file_processor.py`. -/
def identifyMediaType (name : String) : Option String :=
  let ext := strLower (pathSuffix name)
  if ext = ".jpg" ∨ ext = ".jpeg" ∨ ext = ".dng" ∨ ext = ".arw" then some "image"
  else if ext = ".mp4" then some "video"
  else none

/-!  `FileProcessor._extract_*` helpers. -/

/-- A `dict.get(field)` whose result is a non-empty stripped string, as the
`make`/`model` field loops require. -/
def getStrField (metadata : MetaVal) : List String → Option String
  | [] => none
  | field :: rest =>
    match metadata.get field with
    | some (.str s) =>
      if !s.isEmpty ∧ !(pyStrip s).isEmpty then some (pyStrip s)
      else getStrField metadata rest
    | _ => getStrField metadata rest

/-- Embeds `_extract_make`. -/
def extractMake (metadata : MetaVal) (deviceType : Option String) : String :=
  match getStrField metadata ["Make", "DeviceManufacturer", "manufacturer"] with
  | some m => m
  | none =>
    if deviceType = some "dji_rc_pro" then "DJI"
    else if deviceType = some "dji_drone" then "DJI"
    else if deviceType = some "sony_camera" then "Sony"
    else "Unknown"

/-- Embeds `_extract_model`. -/
def extractModel (metadata : MetaVal) (deviceType : Option String) : String :=
  match getStrField metadata ["Model", "DeviceModelName", "modelname"] with
  | some m => m
  | none =>
    if deviceType = some "dji_drone" then "Mavic 3 Pro"
    else if deviceType = some "sony_camera" then "ILCE-7M4"
    else if deviceType = some "dji_rc_pro" then "RC Pro"
    else "Unknown"

/-- Embeds `_extract_sequence_number`: for DJI drone files, the third
underscore-separated token when there are at least three. -/
def extractSequenceNumber (deviceType : Option String) (name : String) : Option String :=
  if deviceType = some "dji_drone" then
    let parts := pySplit name "_"
    if 3 ≤ parts.length then parts.get? 2 else none
  else none

/-- Embeds `_extract_shutter_count`: zero-padded 6-digit shutter count for the Sony
camera, from `ShutterCount` then `ShutterCount2`. -/
def extractShutterCount (deviceType : Option String) (metadata : MetaVal) : Option String :=
  if deviceType = some "sony_camera" then
    let first :=
      match metadata.get "ShutterCount" with
      | some v =>
        if v.truthy then (pyInt? (pyStrip v.pyStr)).map pyFormat06d else none
      | none => none
    match first with
    | some r => some r
    | none =>
      match metadata.get "ShutterCount2" with
      | some v =>
        if v.truthy then (pyInt? v.pyStr).map pyFormat06d else none
      | none => none
  else none

/-- Standard resolution label from an integral vertical height
(`4K`/`FHD`/`HD`, else `{height}p`). -/
def resolutionLabel (h : Int) : String :=
  if h = 2160 then "4K"
  else if h = 1080 then "FHD"
  else if h = 720 then "HD"
  else toString h ++ "p"

/-- The ordered `(width_field, height_field)` pairs of
`_extract_resolution`. -/
def resolutionFields : List (String × String) :=
  [("ImageWidth", "ImageHeight"),
   ("VideoFormatVideoLayoutPixel", "VideoFormatVideoLayoutNumOfVerticalLine"),
   ("Width", "Height"),
   ("SourceImageWidth", "SourceImageHeight"),
   ("XML:VideoFormatVideoLayoutPixel", "XML:VideoFormatVideoLayoutNumOfVerticalLine"),
   ("Composite:ImageWidth", "Composite:ImageHeight")]

/-- One iteration of the general resolution loop: converts string-encoded
width/height (tolerating `WxH` strings), `none` directing the loop to
continue. -/
def resolutionFromPair (w h : MetaVal) : Option String :=
  let widthOk :=
    match w with
    | .str ws => (pyInt? (pyStrip ((pySplit ws "x").headD ""))).isSome
    | _ => true
  if widthOk then
    match h with
    | .str hs =>
      let hv :=
        if strContains hs "x" then pyInt? (pyStrip (((pySplit hs "x").get? 1).getD ""))
        else pyInt? hs
      hv.map resolutionLabel
    | other => some (other.pyStr ++ "p")
  else none

/-- The general field-pair loop of `_extract_resolution`. -/
def tryResolutionFields (metadata : MetaVal) : List (String × String) → Option String
  | [] => none
  | (wf, hf) :: rest =>
    match metadata.get wf, metadata.get hf with
    | some w, some h =>
      if w.truthy ∧ h.truthy then
        match resolutionFromPair w h with
        | some r => some r
        | none => tryResolutionFields metadata rest
      else tryResolutionFields metadata rest
    | _, _ => tryResolutionFields metadata rest

/-- Embeds `_extract_resolution`. -/
def extractResolution (deviceType : Option String) (name : String) (metadata : MetaVal) :
    Option String :=
  let sonySpecific :=
    if deviceType = some "sony_camera" ∧ strLower (pathSuffix name) = ".mp4" then
      match metadata.get "VideoFormatVideoLayoutPixel",
            metadata.get "VideoFormatVideoLayoutNumOfVerticalLine" with
      | some w, some h =>
        if w.truthy ∧ h.truthy then
          match pyInt? w.pyStr, pyInt? h.pyStr with
          | some _, some hv => some (resolutionLabel hv)
          | _, _ => none
        else none
      | _, _ => none
    else none
  match sonySpecific with
  | some r => some r
  | none =>
    match tryResolutionFields metadata resolutionFields with
    | some r => some r
    | none =>
      match metadata.get "ImageSize" with
      | some (.str s) =>
        if !s.isEmpty then
          let sep := if strContains s "x" then "x" else " "
          if strContains s sep then
            match (pySplit (strLower s) sep).map pyInt? with
            | [some _, some hv] => some (resolutionLabel hv)
            | _ => none
          else none
        else none
      | _ => none

/-- Rounds a rational to two decimals and prints it like Python
`f"{x:.2f}"`. -/
def formatRat2 (q : Rat) : String :=
  let n : Int := round (q * 100)
  let sign := if n < 0 then "-" else ""
  let a := n.natAbs
  sign ++ toString (a / 100) ++ "." ++ padZeros 2 (a % 100)

/-- The frame-rate label: snap to 24/25/30/50/60 within ±0.5, else the
literal rate with a trailing `p`. -/
def fpsLabel (fps : Rat) : String :=
  if |fps - 24| < 1/2 then "24p"
  else if |fps - 25| < 1/2 then "25p"
  else if |fps - 30| < 1/2 then "30p"
  else if |fps - 50| < 1/2 then "50p"
  else if |fps - 60| < 1/2 then "60p"
  else if fps.den = 1 then toString (pyTrunc fps) ++ "p"
  else formatRat2 fps ++ "p"

/-- The generic FPS field list of `_extract_fps`. -/
def fpsFields : List String :=
  ["VideoFrameRate", "VideoFrameRateManual", "VideoFormatVideoFrameCaptureFps",
   "VideoFormatVideoFrameFormatFps", "FrameRate",
   "XML:VideoFormatVideoFrameCaptureFps", "XML:VideoFormatVideoFrameFormatFps",
   "XML:LtcChangeTableTcFps", "AvgFrameRate"]

/-- The generic FPS loop: strings like `24`, `24p`, `24.00p`. -/
def tryFpsFields (metadata : MetaVal) : List String → Option String
  | [] => none
  | f :: rest =>
    match metadata.get f with
    | some v =>
      if v.truthy then
        let vs := v.pyStr
        let fq :=
          if strContains vs "p" then pyFloat? ((pySplit vs "p").headD "")
          else pyFloat? vs
        match fq with
        | some q => some (fpsLabel q)
        | none => tryFpsFields metadata rest
      else tryFpsFields metadata rest
    | none => tryFpsFields metadata rest

/-- The Sony-specific FPS loop of `_extract_fps` (only `...p`-shaped values
produce a result; anything else falls through). -/
def trySonyFpsFields (metadata : MetaVal) : List String → Option String
  | [] => none
  | f :: rest =>
    match metadata.get f with
    | some v =>
      if v.truthy then
        let vs := v.pyStr
        if strContains vs "p" then
          match pyFloat? ((pySplit vs "p").headD "") with
          | some q => some (fpsLabel q)
          | none => trySonyFpsFields metadata rest
        else trySonyFpsFields metadata rest
      else trySonyFpsFields metadata rest
    | none => trySonyFpsFields metadata rest

/-- Embeds `_extract_fps`. -/
def extractFps (deviceType : Option String) (name : String) (metadata : MetaVal) :
    Option String :=
  let sonySpecific :=
    if deviceType = some "sony_camera" ∧ strLower (pathSuffix name) = ".mp4" then
      trySonyFpsFields metadata
        ["VideoFormatVideoFrameCaptureFps", "VideoFormatVideoFrameFormatFps",
         "XML:VideoFormatVideoFrameCaptureFps"]
    else none
  match sonySpecific with
  | some r => some r
  | none => tryFpsFields metadata fpsFields

/-- The duration field list of `_extract_video_duration`. -/
def durationFields : List String :=
  ["Duration", "MediaDuration", "TrackDuration", "QuickTime:Duration",
   "XML:Duration", "MediaCreateDate", "MediaModifyDate", "TrackCreateDate",
   "TrackModifyDate"]

/-- Duration in seconds from one field value: `h:mm:ss`, `mm:ss`, or a value
whose digits-and-dots extract parses as a float. -/
def durationSecondsOf (vs : String) : Option Rat :=
  if strContains vs ":" then
    match (pySplit vs ":").map pyFloat? with
    | [some h, some m, some s] => some (h * 3600 + m * 60 + s)
    | [some m, some s] => some (m * 60 + s)
    | _ => none
  else if strContains vs "s" ∨ pyIsDigit (pyReplace vs "." "") then
    pyFloat? ⟨vs.data.filter (fun c => c.isDigit || c == '.')⟩
  else none

/-- The field loop of `_extract_video_duration`. -/
def tryDurationFields (metadata : MetaVal) : List String → Option Rat
  | [] => none
  | f :: rest =>
    match metadata.get f with
    | some v =>
      if v.truthy then
        match durationSecondsOf v.pyStr with
        | some d => some d
        | none => tryDurationFields metadata rest
      else tryDurationFields metadata rest
    | none => tryDurationFields metadata rest

/-- Python `f"{i:02d}"`. -/
def pyFormat02d (i : Int) : String :=
  if i < 0 then ⟨'-' :: (padZeros 1 (-i).toNat).data⟩ else padZeros 2 i.toNat

/-- Embeds `_extract_video_duration`. -/
def extractVideoDuration (mediaType : Option String) (metadata : MetaVal) : Option String :=
  if mediaType ≠ some "video" then none
  else
    match tryDurationFields metadata durationFields with
    | none => none
    | some ds =>
      let minutes : Int := (ds / 60).floor
      let seconds : Int := pyTrunc (ds - 60 * (minutes : Rat))
      if 0 < minutes then some (pyFormat02d minutes ++ "m" ++ pyFormat02d seconds ++ "s")
      else some (pyFormat02d seconds ++ "s")

/-- Embeds `_extract_focal_length`: lens-code to focal-length mapping for DJI Mavic
3 Pro photos. -/
def extractFocalLength (mediaType deviceType : Option String) (name : String)
    (metadata : MetaVal) : Option String :=
  if mediaType ≠ some "image" ∨ deviceType ≠ some "dji_drone" then none
  else
    let filename := strLower name
    let cameraModel := strLower (((metadata.get "Model").getD (.str "")).pyStr)
    let lensId := strLower (((metadata.get "LensID").getD (.str "")).pyStr)
    let hits := fun (code : String) =>
      strContains filename code ∨ strContains cameraModel code ∨ strContains lensId code
    if hits "l2d-20c" then some "24mm"
    else if hits "fc4382" then some "70mm"
    else if hits "fc4370" then some "166mm"
    else none

/-!  `FileProcessor._generate_new_filename`. -/

/-- Splits a list at the first closing brace, returning the characters before
it and the remainder after it. -/
def spanToClose : List Char → Option (List Char × List Char)
  | [] => none
  | c :: rest =>
    if c = '\x7d' then some ([], rest)
    else
      match spanToClose rest with
      | some (pre, post) => some (c :: pre, post)
      | none => none

/-- Fuelled scanner for `re.sub(r'\x7b[^\x7d]+\x7d', '', s)`: at each opening
brace, a non-empty brace-free run up to the next closing brace is removed
(match consumed); otherwise scanning moves one character on. -/
def stripPhFuel : Nat → List Char → List Char
  | 0, l => l
  | _ + 1, [] => []
  | fuel + 1, c :: rest =>
    if c = '\x7b' then
      match spanToClose rest with
      | some (pre, post) =>
        if pre.isEmpty then c :: stripPhFuel fuel rest
        else stripPhFuel fuel post
      | none => c :: stripPhFuel fuel rest
    else c :: stripPhFuel fuel rest

/-- The `re.sub` that removes unfilled placeholders. -/
def stripPlaceholders (s : String) : String :=
  ⟨stripPhFuel s.data.length s.data⟩

/-- Lines 493–508 of `file_processor.py`: substitute each component into the
template, strip leftover placeholders, replace `--` by `-` once, replace
spaces by dashes. -/
def fillPattern (pattern : String) (components : List (String × String)) : String :=
  let substituted := components.foldl
    (fun acc kv =>
      let ph := "\x7b" ++ kv.1 ++ "\x7d"
      if strContains acc ph then pyReplace acc ph kv.2 else acc)
    pattern
  let stripped := stripPlaceholders substituted
  let dashed := pyReplace stripped "--" "-"
  pyReplace dashed " " "-"

/-- Inserts into an insertion-ordered string dict (Python dict update:
overwrite keeps the original position). -/
def dictInsert (l : List (String × String)) (k v : String) : List (String × String) :=
  if l.any (fun p => p.1 == k) then l.map (fun p => if p.1 == k then (k, v) else p)
  else l ++ [(k, v)]

/-- The model-name clean-up of `_generate_new_filename`. -/
def cleanModel (model : String) : String :=
  if strContains model "RC Pro" then "RCPro"
  else if strContains model "Mavic 3 Pro" then "Mavic3Pro"
  else if strContains model "ILCE-" then pyReplace (pyReplace model "ILCE-" "ILCE") " " "-"
  else pyReplace model " " "-"

/-- The components dict built by `_generate_new_filename` (base entries, then
the device- and media-specific conditional entries, `model` overwritten to
`Mavic3Pro` for the drone). -/
def buildComponents (name : String) (metadata : MetaVal) (deviceType mediaType : Option String)
    (dateStr timeStr : String) : List (String × String) :=
  let ext := getNormalizedExtension (pathSuffix name)
  let make := pyReplace (extractMake metadata deviceType) " " "-"
  let model := cleanModel (extractModel metadata deviceType)
  let comps : List (String × String) :=
    [("datetime", dateStr ++ "-" ++ timeStr), ("date", dateStr), ("time", timeStr),
     ("make", make), ("model", model), ("ext", ext)]
  let comps :=
    if deviceType = some "dji_drone" then
      let comps :=
        match extractSequenceNumber deviceType name with
        | some s => if s.isEmpty then comps else dictInsert comps "sequence" s
        | none => comps
      let comps := dictInsert comps "model" "Mavic3Pro"
      if mediaType = some "image" then
        match extractFocalLength mediaType deviceType name metadata with
        | some f => if f.isEmpty then comps else dictInsert comps "focal_length" f
        | none => comps
      else comps
    else comps
  if mediaType = some "video" then
    let comps :=
      match extractResolution deviceType name metadata with
      | some r => if r.isEmpty then comps else dictInsert comps "resolution" r
      | none => comps
    let comps :=
      match extractFps deviceType name metadata with
      | some r => if r.isEmpty then comps else dictInsert comps "fps" r
      | none => comps
    match extractVideoDuration mediaType metadata with
    | some r => if r.isEmpty then comps else dictInsert comps "duration" r
    | none => comps
  else if mediaType = some "image" ∧ deviceType = some "sony_camera" then
    match extractShutterCount deviceType metadata with
    | some r => if r.isEmpty then comps else dictInsert comps "shutter_count" r
    | none => comps
  else comps

/-- Embeds `_generate_new_filename` (nothing in the template fill can raise in the
model, so the result is always produced). -/
def generateNewFilename (name : String) (metadata : MetaVal) (deviceType mediaType : Option String)
    (dateStr timeStr : String) : Option String :=
  some (fillPattern (FILENAME_PATTERNS deviceType mediaType)
    (buildComponents name metadata deviceType mediaType dateStr timeStr))

/-!  The Sony direct-timestamp chains of `FileProcessor.process`
(lines 93–276).  Indexing a string where a dict is expected outside a `try`
block is modelled as `Except.error`. -/

/-- The colon-date rewrite used in the ARW chain and the ExifIFD path:
applied only when the string holds at least two colons and a space. -/
def colonRewriteA (s : String) : String :=
  if strContains s ":" ∧ 2 ≤ countChar s ':' then
    match pySplitOnce s " " with
    | [d, t] => pyReplace d ":" "-" ++ " " ++ t
    | _ => s
  else s

/-- The colon-date rewrite of the `QuickTime:CreateDate` path: splits on all
spaces and rejoins. -/
def colonRewriteC (s : String) : String :=
  if strContains s ":" then
    let parts := pySplit s " "
    if 2 ≤ parts.length then
      pyReplace (parts.headD "") ":" "-" ++ " " ++ pyJoin " " (parts.drop 1)
    else s
  else s

/-- One simple ARW-chain step: group and field looked up with `in` (substring
on strings), the indexing guarded by the step's `try`, the value rewritten
with `colonRewriteA` and parsed. -/
def sonyStepA (metadata : MetaVal) (group field : String) : Option DateTime :=
  if metadata.hasKey group ∧ ((metadata.get group).getD .nil).pyIn field then
    match (metadata.get group).getD .nil with
    | .str _ => none
    | g =>
      match g.get field with
      | some (.str s) => dateutilParse (colonRewriteA s)
      | _ => none
  else none

/-- The truthy-or-empty suffix Python's
`f"...{tz_offset if tz_offset else ''}"` appends. -/
def tzSuffix (v : Option MetaVal) : String :=
  match v with
  | some m => if m.truthy then m.pyStr else ""
  | none => ""

/-- The ARW (`DSC*.ARW`) direct chain: `Composite:SubSecDateTimeOriginal`,
`System:FileModifyDate`, `ExifIFD:DateTimeOriginal` (+ offset), then
`IFD0:ModifyDate`; a string-valued `ExifIFD` entry whose repr contains the
field name is indexed outside any `try` and raises. -/
def sonyTimestampARW (metadata : MetaVal) : Except Unit (Option DateTime) :=
  match sonyStepA metadata "Composite" "SubSecDateTimeOriginal" with
  | some dt => .ok (some dt)
  | none =>
    match sonyStepA metadata "System" "FileModifyDate" with
    | some dt => .ok (some dt)
    | none =>
      if metadata.hasKey "ExifIFD" ∧ ((metadata.get "ExifIFD").getD .nil).pyIn "DateTimeOriginal" then
        match (metadata.get "ExifIFD").getD .nil with
        | .str _ => .error ()
        | g =>
          let dateVal := (g.get "DateTimeOriginal").getD .nil
          let off := g.get "OffsetTimeOriginal"
          let dtStr :=
            match dateVal with
            | .str s => colonRewriteA s
            | v => v.pyStr
          match dateutilParse (dtStr ++ tzSuffix off) with
          | some dt => .ok (some dt)
          | none =>
            match sonyStepA metadata "IFD0" "ModifyDate" with
            | some dt => .ok (some dt)
            | none => .ok none
      else
        match sonyStepA metadata "IFD0" "ModifyDate" with
        | some dt => .ok (some dt)
        | none => .ok none

/-- The manual-parse fallback of the `QuickTime:CreateDate` path (lines
230–257): components split out of the rewritten string, seconds truncated
through `float`, the offset attached via a parse of
`2000-01-01 12:00:00{tz}`; any failure leaves the chain empty. -/
def sonyManualQT (ds : String) (off : Option MetaVal) : Option DateTime := do
  let parts := pySplit ds " "
  if 2 ≤ parts.length then
    let ymd := pySplit (parts.headD "") "-"
    let hms := pySplit ((parts.get? 1).getD "") ":"
    if 3 ≤ ymd.length ∧ 3 ≤ hms.length then do
      let y ← pyInt? ((ymd.get? 0).getD "")
      let mo ← pyInt? ((ymd.get? 1).getD "")
      let d ← pyInt? ((ymd.get? 2).getD "")
      let h ← pyInt? ((hms.get? 0).getD "")
      let mi ← pyInt? ((hms.get? 1).getD "")
      let sq ← pyFloat? ((hms.get? 2).getD "")
      let dt ← mkDatetime? y.toNat mo.toNat d.toNat h.toNat mi.toNat (pyTrunc sq).toNat none
      match off with
      | some o =>
        if o.truthy then
          match dateutilParse ("2000-01-01 12:00:00" ++ o.pyStr) with
          | some z =>
            match z.tz with
            | some zz => some { dt with tz := some zz }
            | none => none
          | none => none
        else some dt
      | none => some dt
    else none
  else none

/-- The MP4 (`C*.MP4`) direct chain: `XML:CreationDateValue`,
`QuickTime:CreateDate` (+ `QuickTime:TimeZone`, with a manual fallback),
`System:FileModifyDate` (parsed raw), then `XML:LastUpdate` (parsed raw);
string-valued `XML`/`QuickTime` groups are indexed outside any `try` and
raise. -/
def sonyTimestampMP4 (metadata : MetaVal) : Except Unit (Option DateTime) :=
  let step1 : Except Unit (Option DateTime) :=
    if metadata.hasKey "XML" ∧ ((metadata.get "XML").getD .nil).pyIn "CreationDateValue" then
      match (metadata.get "XML").getD .nil with
      | .str _ => .error ()
      | g =>
        match g.get "CreationDateValue" with
        | some (.str s) =>
          let parts := pySplit s " "
          if 2 ≤ parts.length then
            .ok (dateutilParse
              (pyReplace (parts.headD "") ":" "-" ++ " " ++ pyJoin " " (parts.drop 1)))
          else .ok none
        | _ => .ok none
    else .ok none
  match step1 with
  | .error e => .error e
  | .ok (some dt) => .ok (some dt)
  | .ok none =>
    let step2 : Except Unit (Option DateTime) :=
      if metadata.hasKey "QuickTime" ∧ ((metadata.get "QuickTime").getD .nil).pyIn "CreateDate" then
        match (metadata.get "QuickTime").getD .nil with
        | .str _ => .error ()
        | g =>
          let dateVal := (g.get "CreateDate").getD .nil
          let ds :=
            match dateVal with
            | .str s => colonRewriteC s
            | v => v.pyStr
          let off := g.get "TimeZone"
          match dateutilParse (ds ++ tzSuffix off) with
          | some dt => .ok (some dt)
          | none => .ok (sonyManualQT ds off)
      else .ok none
    match step2 with
    | .error e => .error e
    | .ok (some dt) => .ok (some dt)
    | .ok none =>
      let step3 : Option DateTime :=
        if metadata.hasKey "System" ∧ ((metadata.get "System").getD .nil).pyIn "FileModifyDate" then
          match (metadata.get "System").getD .nil with
          | .str _ => none
          | g =>
            match g.get "FileModifyDate" with
            | some (.str s) => dateutilParse s
            | _ => none
        else none
      match step3 with
      | some dt => .ok (some dt)
      | none =>
        let step4 : Option DateTime :=
          if metadata.hasKey "XML" ∧ ((metadata.get "XML").getD .nil).pyIn "LastUpdate" then
            match (metadata.get "XML").getD .nil with
            | .str _ => none
            | g =>
              match g.get "LastUpdate" with
              | some (.str s) => dateutilParse s
              | _ => none
          else none
        .ok step4

/-- The condition `.suffix.lower() == '.arw'` that selects the Sony ARW
chain. -/
def isSonyArw (name : String) : Bool :=
  strLower (pathSuffix name) == ".arw"

/-- The condition `.suffix.lower() == '.mp4' and name.startswith('C')`, which
selects the Sony MP4 chain. -/
def isSonyMp4 (name : String) : Bool :=
  strLower (pathSuffix name) == ".mp4" && pyStartswith name "C"

/-- The timestamp-selection section of `FileProcessor.process` (lines
76–297): Sony direct chain for `.arw`/`C*.mp4` names, then
`sony or metadata` for those files and `filename or metadata` for all
others. -/
def resolveTimestamp (name : String) (metadata : MetaVal) (timezoneStr : String) :
    Except Unit (Option DateTime) :=
  let sonyE : Except Unit (Option DateTime) :=
    if isSonyArw name then sonyTimestampARW metadata
    else if isSonyMp4 name then sonyTimestampMP4 metadata
    else .ok none
  match sonyE with
  | .error e => .error e
  | .ok sony =>
    let filenameTs := extractTimestampFromFilename name
    let metadataE : Except Unit (Option DateTime) :=
      match sony with
      | some s => .ok (some s)
      | none => extractTimestampFromMetadata dateutilParse metadata timezoneStr
    match metadataE with
    | .error e => .error e
    | .ok metadataTs =>
      if isSonyArw name || isSonyMp4 name then
        match sony with
        | some s => .ok (some s)
        | none => .ok metadataTs
      else
        match filenameTs with
        | some f => .ok (some f)
        | none => .ok metadataTs

/-!  `FileProcessor.process` and the `main.process_files` orchestrator. -/

/-- Processor configuration: constructor arguments of `FileProcessor`. -/
structure Cfg where
  outputBaseDir : String
  timezone : String

/-- One input file together with the answers of its external collaborators:
whether the source exists, the metadata bag the extractor returns, whether the
computed output path already exists, whether the tracking store has the source
path, and whether the copy succeeds. -/
structure FileEnv where
  name : String
  fileExists : Bool
  metadata : MetaVal
  outputPathExists : Bool
  dbHasSource : Bool
  copyOk : Bool

/-- Embeds `FileProcessor.process`: `.ok (some path)` on success, `.ok none` on any
skip or per-file failure, `.error` when an uncaught exception escapes (caught
by the orchestrator's per-file `try`). -/
def process (cfg : Cfg) (env : FileEnv) : Except Unit (Option String) :=
  if !env.fileExists then .ok none
  else if !env.metadata.truthy then .ok none
  else
    let deviceType := identifyDeviceType env.name env.metadata
    let mediaType := identifyMediaType env.name
    if deviceType = none ∨ mediaType = none then .ok none
    else
      match resolveTimestamp env.name env.metadata cfg.timezone with
      | .error e => .error e
      | .ok none => .ok none
      | .ok (some ts) =>
        let (dateStr, timeStr) := getFormattedTimestamp ts
        let outputDir := createOutputDirectory cfg.outputBaseDir ts mediaType
        match generateNewFilename env.name env.metadata deviceType mediaType dateStr timeStr with
        | none => .ok none
        | some newFilename =>
          let outputPath := outputDir ++ "/" ++ newFilename
          if isFileAlreadyProcessed env.outputPathExists env.dbHasSource then .ok none
          else if env.copyOk then .ok (some outputPath)
          else .ok none

/-- The non-dry-run branch of the `process_files` loop, accumulating
`(success_count, error_count)`: a returned path counts as success, `None` or
an escaped exception counts as error. -/
def processFiles (cfg : Cfg) (envs : List FileEnv) : Nat × Nat :=
  envs.foldl
    (fun acc env =>
      match process cfg env with
      | .ok (some _) => (acc.1 + 1, acc.2)
      | .ok none => (acc.1, acc.2 + 1)
      | .error _ => (acc.1, acc.2 + 1))
    (0, 0)

/-- The proposed output directory printed by the dry-run branch:
`output_dir[/photos|/videos]/` then `strftime('%Y/%m')`. -/
def dryRunProposedDir (baseDir : String) (mediaType : Option String) (ts : DateTime) : String :=
  mediaFolder baseDir mediaType ++ "/" ++ padZeros 4 ts.year ++ "/" ++ padZeros 2 ts.month

/-- The dry-run branch of `process_files` (lines 149–212 of `main.py`) for
one file, returning the `Would save to` path when one is printed: device
classification runs against the processor's still-empty metadata dict, the
timestamp is chosen by `device_type == 'sony_camera'`, and the directory is
the `%Y/%m` form. -/
def dryRunWouldSaveTo (cfg : Cfg) (env : FileEnv) : Except Unit (Option String) :=
  let metadata := env.metadata
  let deviceType := identifyDeviceType env.name MetaVal.nil
  let mediaType := identifyMediaType env.name
  let filenameTs := extractTimestampFromFilename env.name
  match extractTimestampFromMetadata dateutilParse metadata cfg.timezone with
  | .error e => .error e
  | .ok metadataTs =>
    let ts :=
      if deviceType = some "sony_camera" then metadataTs
      else
        match filenameTs with
        | some f => some f
        | none => metadataTs
    match ts with
    | none => .ok none
    | some t =>
      let (dateStr, timeStr) := getFormattedTimestamp t
      let dir := dryRunProposedDir cfg.outputBaseDir mediaType t
      match generateNewFilename env.name metadata deviceType mediaType dateStr timeStr with
      | some newFilename => .ok (some (dir ++ "/" ++ newFilename))
      | none => .ok none

/-!  Vocabulary for claim statements and concrete inputs used by the
counterexamples and witnesses. -/

/-- Holds when `tok` occurs contiguously inside `l`. -/
def occursIn (tok l : List Char) : Prop :=
  ∃ a b, l = a ++ tok ++ b

/-- Holds when `tok` is a prefix of `l`. -/
def prefixP (tok l : List Char) : Prop :=
  ∃ t, l = tok ++ t

/-- The placeholder token `{key}` as characters. -/
def phTok (key : String) : List Char :=
  '\x7b' :: key.data ++ ['\x7d']

/-- Every placeholder name used by the filename templates and the components
dict. -/
def placeholderKeys : List String :=
  ["datetime", "date", "time", "make", "model", "ext", "sequence",
   "focal_length", "resolution", "fps", "duration", "shutter_count"]

/-- Configuration shared by the concrete scenarios. -/
def exCfg : Cfg := ⟨"out", "local"⟩

/-- The spec's scenario input: `DJI_20230615143022_0007_D.jpg` with a
non-empty but unusable metadata bag. -/
def djiEnv : FileEnv :=
  ⟨"DJI_20230615143022_0007_D.jpg", true, mkBag [("SourceFile", .str "x")],
   false, false, true⟩

/-- The same file when its output path already exists (already processed). -/
def djiEnvProcessed : FileEnv :=
  { djiEnv with outputPathExists := true }

/-- The same file when the tracking store holds its source path. -/
def djiEnvTracked : FileEnv :=
  { djiEnv with dbHasSource := true }

/-- A file the rule table classifies as `sony_camera` (name contains `DSC`)
whose name also carries a parseable timestamp; its metadata holds a different
date. -/
def sonyJpgEnv : FileEnv :=
  ⟨"DSC_20230615143022.jpg", true,
   mkBag [("DateTimeOriginal", .str "2020-01-01 00:00:00")], false, false, true⟩

/-- A Sony ARW file whose only date field is a naive
`ExifIFD:DateTimeOriginal` with no offset field. -/
def arwEnv : FileEnv :=
  ⟨"DSC00042.ARW", true,
   mkBag [("ExifIFD", mkBag [("DateTimeOriginal", .str "2023:06:15 10:00:00")])],
   false, false, true⟩

/-- A metadata bag whose `QuickTime` group holds a `CreateDate` that parses
to an aware instant: the special block runs (no `TimeZone` entry, so the
shadowed `timezone_str` ends up `None`) and `QuickTime:CreateDate` is the
first field that parses. -/
def qtShadowBag : MetaVal :=
  mkBag [("QuickTime", mkBag [("CreateDate", .str "2023-06-15 10:00:00+02:00")])]

/-- The same aware value as a top-level `CreateDate`, with no `QuickTime`
group to shadow the parameter. -/
def noQtBag : MetaVal :=
  mkBag [("CreateDate", .str "2023-06-15 10:00:00+02:00")]

/-- A `.MP4` whose base name is the capital letter `D` followed by digits. -/
def dMp4Bag : MetaVal := mkBag [("foo", .str "bar")]

/-!  Helper lemmas. -/

theorem mkDatetime?_tz {y mo d h mi s : Nat} {tz : Option Tz} {dt : DateTime}
    (hEq : mkDatetime? y mo d h mi s tz = some dt) : dt.tz = tz := by
  unfold mkDatetime? at hEq
  split at hEq
  · cases Option.some.inj hEq
    rfl
  · cases hEq

theorem groupsBind_tz {o : Option (Nat × Nat × Nat × Nat × Nat × Nat)} {dt : DateTime}
    (h : o.bind groupsToLocal = some dt) : dt.tz = some Tz.local := by
  cases o with
  | none => cases h
  | some g => exact mkDatetime?_tz h

theorem extractTimestampFromFilename_tz {name : String} {dt : DateTime}
    (h : extractTimestampFromFilename name = some dt) : dt.tz = some Tz.local := by
  unfold extractTimestampFromFilename at h
  dsimp only at h
  split at h
  · next heq => cases Option.some.inj h; exact groupsBind_tz heq
  · split at h
    · next heq => cases Option.some.inj h; exact groupsBind_tz heq
    · exact groupsBind_tz h

theorem applyTimezonePolicy_tz (flat : List (String × MetaVal)) (metadata : MetaVal)
    (tz : Tz) (sh : Option String) (dt : DateTime) :
    (applyTimezonePolicy flat metadata tz sh dt).tz ≠ none := by
  unfold applyTimezonePolicy
  split
  · split <;> simp
  · next z heq =>
    split
    · unfold DateTime.astimezone
      rw [heq]
      simp
    · rw [heq]
      simp

theorem tryTimestampFields_aware (parse : String → Option DateTime)
    (flat : List (String × MetaVal)) (metadata : MetaVal) (tz : Tz) (sh : Option String) :
    ∀ (fields : List String) (dt : DateTime),
      tryTimestampFields parse flat metadata tz sh fields = some dt → dt.tz ≠ none := by
  intro fields
  induction fields with
  | nil => intro dt h; cases h
  | cons f rest ih =>
    intro dt h
    unfold tryTimestampFields at h
    dsimp only at h
    split at h
    · next s _ =>
      split at h
      · exact ih dt h
      · split at h
        · cases Option.some.inj h
          exact applyTimezonePolicy_tz flat metadata tz sh _
        · exact ih dt h
    · exact ih dt h

theorem extractTimestampFromMetadata_aware (parse : String → Option DateTime)
    (metadata : MetaVal) (tzStr : String) (dt : DateTime)
    (h : extractTimestampFromMetadata parse metadata tzStr = .ok (some dt)) : dt.tz ≠ none := by
  unfold extractTimestampFromMetadata at h
  dsimp only at h
  split at h
  · cases h
  · split at h
    · next heq =>
      cases Option.some.inj (Except.ok.inj h)
      exact tryTimestampFields_aware parse _ metadata _ _ timestampFields _ heq
    · split at h
      · split at h
        · split at h
          · split at h
            · cases Option.some.inj (Except.ok.inj h)
              split
              · simp
              · next htz => exact htz
            · cases h
          · cases h
        · cases h
      · cases h

/-!  Claim theorems. -/

/-- C1: the claim says an already-processed file (output path exists or
source tracked) is skipped silently and not counted as an error, the error
count of `process_files` being unchanged.  In the code, `process` returns
`None` for such a file and `process_files` counts every `None` as an error:
for the valid DJI scenario file, marking it already processed turns the batch
tally from one success into one error, so the error count for `[file]` is 1
while for `[]` it is 0. -/
theorem claim_C1_already_processed_counted_as_error :
    process exCfg djiEnvProcessed = .ok none ∧
    process exCfg djiEnvTracked = .ok none ∧
    process exCfg djiEnv =
      .ok (some "out/photos/2023/2023-06/2023-06-15/20230615-143022-0007-DJI-Mavic3Pro-.jpg") ∧
    processFiles exCfg [djiEnv] = (1, 0) ∧
    processFiles exCfg [djiEnvProcessed] = (0, 1) ∧
    processFiles exCfg [djiEnvTracked] = (0, 1) ∧
    processFiles exCfg ([] : List FileEnv) = (0, 0) := by
  refine ⟨by decide, by decide, by decide, by decide, by decide, by decide, rfl⟩

/-- C2 (counterexample): for the DJI scenario file the dry run reports
`out/photos/2023/06/...` while the real run copies to
`out/photos/2023/2023-06/2023-06-15/...` — the reported output path is never
the path the real run would use. -/
theorem claim_C2_counterexample :
    dryRunWouldSaveTo exCfg djiEnv =
      .ok (some "out/photos/2023/06/20230615-143022-0007-DJI-Mavic3Pro-.jpg") ∧
    process exCfg djiEnv =
      .ok (some "out/photos/2023/2023-06/2023-06-15/20230615-143022-0007-DJI-Mavic3Pro-.jpg") ∧
    ("out/photos/2023/06/20230615-143022-0007-DJI-Mavic3Pro-.jpg" : String) ≠
      "out/photos/2023/2023-06/2023-06-15/20230615-143022-0007-DJI-Mavic3Pro-.jpg" := by
  refine ⟨by decide, by decide, by decide⟩

/-- C2 (amended): the dry-run branch re-implements the decision logic and
diverges from the real run; in particular the directory it reports
(`<media>/YYYY/MM`) differs from the directory the real run copies into
(`<media>/YYYY/YYYY-MM/YYYY-MM-DD`) for every timestamp, media type and base
directory. -/
theorem claim_C2_dry_run_directory_differs :
    ∀ (baseDir : String) (mediaType : Option String) (ts : DateTime),
      dryRunProposedDir baseDir mediaType ts ≠ createOutputDirectory baseDir ts mediaType := by
  intro b m ts h
  have hlen := congrArg String.length h
  simp only [dryRunProposedDir, createOutputDirectory, String.length_append] at hlen
  have h1 : String.length "/" = 1 := rfl
  have h2 : String.length "-" = 1 := rfl
  rw [h1, h2] at hlen
  omega

/-- C4 (counterexample): with the configured timezone `UTC` (not `local`),
the filename-derived timestamp of the DJI scenario file still carries the
system local zone — `extract_timestamp_from_filename` takes no timezone and
always tags `tzlocal()`. -/
theorem claim_C4_counterexample :
    ("UTC" : String) ≠ "local" ∧
    resolveTimestamp "DJI_20230615143022_0007_D.jpg" (mkBag [("SourceFile", MetaVal.str "x")])
        "UTC" =
      .ok (some ⟨2023, 6, 15, 14, 30, 22, some Tz.local⟩) := by
  refine ⟨by decide, by decide⟩

/-- C4 (amended): every timestamp produced by the filename patterns carries
the system local zone, regardless of any configured timezone (the function
has no timezone parameter). -/
theorem claim_C4_filename_timestamp_always_local :
    ∀ (filename : String) (dt : DateTime),
      extractTimestampFromFilename filename = some dt → dt.tz = some Tz.local := by
  intro filename dt h
  exact extractTimestampFromFilename_tz h

/-- C4 (witness): the amended statement applied to the DJI scenario
filename. -/
theorem claim_C4_witness :
    extractTimestampFromFilename "DJI_20230615143022_0007_D.jpg" =
      some ⟨2023, 6, 15, 14, 30, 22, some Tz.local⟩ ∧
    DateTime.tz ⟨2023, 6, 15, 14, 30, 22, some Tz.local⟩ = some Tz.local :=
  ⟨by decide,
   claim_C4_filename_timestamp_always_local "DJI_20230615143022_0007_D.jpg" _ (by decide)⟩

/-- C6: with a `QuickTime` group containing `CreateDate`, the special block
shadows the `timezone_str` parameter (reassigned to `None`, since the group
has no `TimeZone` entry), so the aware `+02:00` instant parsed from
`QuickTime:CreateDate` is *not* converted to local although the caller passed
`'local'`; the very same aware value as a plain top-level `CreateDate` —
where nothing shadows the parameter — is converted to the local zone, as the
claim, and the code's own intent, require. -/
theorem claim_C6_quicktime_shadowing_skips_conversion :
    extractTimestampFromMetadata dateutilParse qtShadowBag "local" =
      .ok (some ⟨2023, 6, 15, 10, 0, 0, some (Tz.offset 120)⟩) ∧
    extractTimestampFromMetadata dateutilParse noQtBag "local" =
      .ok (some ⟨2023, 6, 15, 8, 0, 0, some Tz.local⟩) ∧
    Tz.offset 120 ≠ Tz.local := by
  refine ⟨by decide, by decide, by decide⟩

/-- C7: the spec scenario: `DJI_20230615143022_0007_D.jpg` with a non-empty
but unusable metadata bag is classified `dji_drone`/`image`, resolves to
2023-06-15 14:30:22 in the local zone, yields sequence `0007`, and the
synthesized filename begins `20230615-143022-0007-DJI-Mavic3Pro` with the
focal-length component omitted; processing succeeds end to end. -/
theorem claim_C7_dji_scenario :
    identifyDeviceType djiEnv.name djiEnv.metadata = some "dji_drone" ∧
    identifyMediaType djiEnv.name = some "image" ∧
    resolveTimestamp djiEnv.name djiEnv.metadata exCfg.timezone =
      .ok (some ⟨2023, 6, 15, 14, 30, 22, some Tz.local⟩) ∧
    extractSequenceNumber (some "dji_drone") djiEnv.name = some "0007" ∧
    extractFocalLength (some "image") (some "dji_drone") djiEnv.name djiEnv.metadata = none ∧
    generateNewFilename djiEnv.name djiEnv.metadata (some "dji_drone") (some "image")
        "20230615" "143022" = some "20230615-143022-0007-DJI-Mavic3Pro-.jpg" ∧
    begins "20230615-143022-0007-DJI-Mavic3Pro".data
        "20230615-143022-0007-DJI-Mavic3Pro-.jpg".data = true ∧
    process exCfg djiEnv =
      .ok (some "out/photos/2023/2023-06/2023-06-15/20230615-143022-0007-DJI-Mavic3Pro-.jpg") := by
  refine ⟨by decide, by decide, by decide, by decide, by decide, by decide, by decide, by decide⟩

/-- C8 (counterexample): `D0001.MP4` has a capital letter followed by only
digits as its base name and a `.mp4` extension, yet classification does not
return the camera device (it returns nothing): the code tests
`filename[0] == 'C'`, not any capital letter. -/
theorem claim_C8_counterexample :
    strLower (pathSuffix "D0001.MP4") = ".mp4" ∧
    charIsUpper (headChar "D0001.MP4") = true ∧
    pyIsDigit ⟨((pySplit "D0001.MP4" ".").headD "").data.drop 1⟩ = true ∧
    identifyDeviceType "D0001.MP4" dMp4Bag = none := by
  refine ⟨by decide, by decide, by decide, by decide⟩

/-- C8 (amended): for every `.mp4` (any case) whose name starts with the
capital letter `C` followed by only digits in the base name, classification
returns `sony_camera` regardless of the metadata bag. -/
theorem claim_C8_c_prefix_classified_sony :
    ∀ (name : String) (metadata : MetaVal),
      strLower (pathSuffix name) = ".mp4" →
      headChar name = 'C' →
      pyIsDigit ⟨((pySplit name ".").headD "").data.drop 1⟩ = true →
      identifyDeviceType name metadata = some "sony_camera" := by
  intro name metadata h1 h2 h3
  unfold identifyDeviceType
  dsimp only
  rw [if_pos]
  exact ⟨h1, h2, h3⟩

/-- C8 (witness): the amended statement applied to `C0001.MP4`. -/
theorem claim_C8_witness :
    identifyDeviceType "C0001.MP4" dMp4Bag = some "sony_camera" :=
  claim_C8_c_prefix_classified_sony "C0001.MP4" dMp4Bag (by decide) (by decide) (by decide)

/-- C10: for DJI-drone files the sequence component returned by
`_extract_sequence_number` is exactly the third underscore-separated token
when the name splits into at least three parts (no numeric validation), and
absent otherwise — i.e. it equals `parts[2]` as an optional lookup. -/
theorem claim_C10_sequence_is_third_token :
    ∀ (name : String),
      extractSequenceNumber (some "dji_drone") name = (pySplit name "_").get? 2 := by
  intro name
  unfold extractSequenceNumber
  rw [if_pos rfl]
  dsimp only
  split
  · rfl
  · next hlt => exact (List.get?_eq_none.mpr (by omega)).symm

/-- C3 (counterexample): `DSC_20230615143022.jpg` is classified
`sony_camera` (by the `DSC` filename rule), yet — being neither `.arw` nor a
`C*.mp4` — its timestamp is resolved filename-first: the chosen instant is
the filename-derived 2023-06-15 14:30:22, not the metadata-derived
2020-01-01, so the strategy is not selected by the classified device
identity. -/
theorem claim_C3_counterexample :
    identifyDeviceType sonyJpgEnv.name sonyJpgEnv.metadata = some "sony_camera" ∧
    isSonyArw sonyJpgEnv.name = false ∧
    isSonyMp4 sonyJpgEnv.name = false ∧
    resolveTimestamp sonyJpgEnv.name sonyJpgEnv.metadata "local" =
      .ok (some ⟨2023, 6, 15, 14, 30, 22, some Tz.local⟩) ∧
    extractTimestampFromMetadata dateutilParse sonyJpgEnv.metadata "local" =
      .ok (some ⟨2020, 1, 1, 0, 0, 0, some Tz.local⟩) ∧
    (⟨2023, 6, 15, 14, 30, 22, some Tz.local⟩ : DateTime) ≠
      ⟨2020, 1, 1, 0, 0, 0, some Tz.local⟩ := by
  refine ⟨by decide, by decide, by decide, by decide, by decide, by decide⟩

/-- C3 (amended): the resolution strategy is selected by the extension/name
tests `is_sony_arw` / `is_sony_mp4`, not by the classified device identity:
for every file failing both tests — whatever device classification returns —
the resolved timestamp is the filename-derived one when present, else the
generic metadata resolution. -/
theorem claim_C3_strategy_selected_by_extension :
    ∀ (name : String) (metadata : MetaVal) (tzStr : String),
      isSonyArw name = false → isSonyMp4 name = false →
      resolveTimestamp name metadata tzStr =
        (extractTimestampFromMetadata dateutilParse metadata tzStr).map
          (fun mts =>
            match extractTimestampFromFilename name with
            | some f => some f
            | none => mts) := by
  intro name metadata tzStr h1 h2
  simp only [resolveTimestamp, h1, h2, Bool.false_eq_true, if_false, Bool.or_self]
  cases hE : extractTimestampFromMetadata dateutilParse metadata tzStr with
  | error e => simp [Except.map]
  | ok mts =>
    cases hF : extractTimestampFromFilename name with
    | some f => simp [Except.map, hF]
    | none => simp [Except.map, hF]

/-- C3 (witness): the amended statement applied to the `DSC` counterexample
file. -/
theorem claim_C3_witness :
    resolveTimestamp "DSC_20230615143022.jpg"
        (mkBag [("DateTimeOriginal", MetaVal.str "2020-01-01 00:00:00")]) "local" =
      (extractTimestampFromMetadata dateutilParse
          (mkBag [("DateTimeOriginal", MetaVal.str "2020-01-01 00:00:00")]) "local").map
        (fun mts =>
          match extractTimestampFromFilename "DSC_20230615143022.jpg" with
          | some f => some f
          | none => mts) :=
  claim_C3_strategy_selected_by_extension "DSC_20230615143022.jpg"
    (mkBag [("DateTimeOriginal", MetaVal.str "2020-01-01 00:00:00")]) "local"
    (by decide) (by decide)

/-- C5 (counterexample): an ARW file whose only usable field is a naive
`ExifIFD:DateTimeOriginal` with no offset: the Sony direct chain parses it
without attaching a timezone, the naive instant is the resolved timestamp,
and processing completes — a naive datetime reaches
`get_formatted_timestamp`/`create_output_directory`. -/
theorem claim_C5_counterexample :
    identifyDeviceType arwEnv.name arwEnv.metadata = some "sony_camera" ∧
    identifyMediaType arwEnv.name = some "image" ∧
    resolveTimestamp arwEnv.name arwEnv.metadata exCfg.timezone =
      .ok (some ⟨2023, 6, 15, 10, 0, 0, none⟩) ∧
    DateTime.tz ⟨2023, 6, 15, 10, 0, 0, none⟩ = none ∧
    process exCfg arwEnv =
      .ok (some "out/photos/2023/2023-06/2023-06-15/20230615-100000-Sony-ILCE7M4.arw") := by
  refine ⟨by decide, by decide, by decide, by decide, by decide⟩

/-- C5 (amended): the filename strategy and the generic metadata resolution
always produce timezone-aware instants (for every parser, bag and configured
zone); only the Sony direct chain can let a naive instant through, as the
counterexample shows. -/
theorem claim_C5_generic_paths_always_aware :
    (∀ (parse : String → Option DateTime) (metadata : MetaVal) (tzStr : String) (dt : DateTime),
        extractTimestampFromMetadata parse metadata tzStr = .ok (some dt) → dt.tz ≠ none) ∧
    (∀ (name : String) (dt : DateTime),
        extractTimestampFromFilename name = some dt → dt.tz = some Tz.local) :=
  ⟨fun parse metadata tzStr dt h => extractTimestampFromMetadata_aware parse metadata tzStr dt h,
   fun _ _ h => extractTimestampFromFilename_tz h⟩

/-- C5 (witness): the amended statement applied to the converted `noQtBag`
instant and to the DJI scenario filename. -/
theorem claim_C5_witness :
    DateTime.tz ⟨2023, 6, 15, 8, 0, 0, some Tz.local⟩ ≠ none ∧
    DateTime.tz ⟨2023, 6, 15, 14, 30, 22, some Tz.local⟩ = some Tz.local :=
  ⟨claim_C5_generic_paths_always_aware.1 dateutilParse noQtBag "local" _ (by decide),
   claim_C5_generic_paths_always_aware.2 "DJI_20230615143022_0007_D.jpg" _ (by decide)⟩

/-!  String-rewriting lemmas for the synthesis claim. -/

theorem prefixP_nils (l : List Char) : prefixP [] l := ⟨l, rfl⟩

theorem occursIn_of_nil {tok : List Char} (h : occursIn tok []) : tok = [] := by
  obtain ⟨a, b, hab⟩ := h
  have hlen := congrArg List.length hab
  simp only [List.length_nil, List.length_append] at hlen
  cases tok with
  | nil => rfl
  | cons c t =>
    exfalso
    simp only [List.length_cons] at hlen
    omega

theorem occursIn_cons_elim {tok : List Char} {c : Char} {xs : List Char}
    (h : occursIn tok (c :: xs)) : prefixP tok (c :: xs) ∨ occursIn tok xs := by
  obtain ⟨a, b, hab⟩ := h
  cases a with
  | nil => exact Or.inl ⟨b, by simpa using hab⟩
  | cons x a2 =>
    rw [List.cons_append] at hab
    injection hab with h1 h2
    exact Or.inr ⟨a2, b, h2⟩

theorem occursIn_cons_of {tok : List Char} {xs : List Char} (c : Char)
    (h : occursIn tok xs) : occursIn tok (c :: xs) := by
  obtain ⟨a, b, hab⟩ := h
  exact ⟨c :: a, b, by rw [hab]; rfl⟩

theorem occursIn_of_prefixP {tok l : List Char} (h : prefixP tok l) : occursIn tok l := by
  obtain ⟨t, ht⟩ := h
  exact ⟨[], t, by simpa using ht⟩

theorem occursIn_append_of {tok s : List Char} (pre : List Char)
    (h : occursIn tok s) : occursIn tok (pre ++ s) := by
  obtain ⟨a, b, hab⟩ := h
  exact ⟨pre ++ a, b, by rw [hab]; simp⟩

theorem prefixP_cons_elim {t : Char} {tok : List Char} {c : Char} {xs : List Char}
    (h : prefixP (t :: tok) (c :: xs)) : t = c ∧ prefixP tok xs := by
  obtain ⟨s, hs⟩ := h
  injection hs with h1 h2
  exact ⟨h1.symm, ⟨s, h2⟩⟩

theorem mem_of_prefixP {x : Char} {tok l : List Char} (hx : x ∈ tok) (h : prefixP tok l) :
    x ∈ l := by
  obtain ⟨s, rfl⟩ := h
  exact List.mem_append_left s hx

theorem replaceFuel_space_no_space :
    ∀ (fuel : Nat) (l : List Char), l.length ≤ fuel →
      ' ' ∉ replaceFuel ' ' [] ['-'] fuel l := by
  intro fuel
  induction fuel with
  | zero =>
    intro l hl
    have : l = [] := List.length_eq_zero.mp (Nat.le_zero.mp hl)
    subst this
    simp [replaceFuel]
  | succ f ih =>
    intro l hl
    cases l with
    | nil => simp [replaceFuel]
    | cons c rest =>
      simp only [replaceFuel]
      split
      · next hb =>
        simp only [begins, Bool.and_true, beq_iff_eq] at hb
        intro hmem
        rcases List.mem_cons.mp hmem with h1 | h2
        · exact absurd h1.symm (by decide)
        · exact ih _ (by simpa using Nat.le_of_succ_le_succ hl) h2
      · next hb =>
        simp only [begins, Bool.and_true, beq_iff_eq] at hb
        intro hmem
        rcases List.mem_cons.mp hmem with h1 | h2
        · exact hb h1
        · exact ih rest (Nat.le_of_succ_le_succ hl) h2

theorem replaceFuel_prefix_pullback (p : Char) (pat : List Char) :
    ∀ (fuel : Nat) (l tok : List Char), '-' ∉ tok →
      prefixP tok (replaceFuel p pat ['-'] fuel l) → prefixP tok l := by
  intro fuel
  induction fuel with
  | zero =>
    intro l tok _ h
    cases l with
    | nil =>
      simp only [replaceFuel] at h
      obtain ⟨t, ht⟩ := h
      rcases List.append_eq_nil.mp ht.symm with ⟨rfl, -⟩
      exact prefixP_nils _
    | cons c rest => exact h
  | succ f ih =>
    intro l tok hd h
    cases l with
    | nil =>
      simp only [replaceFuel] at h
      obtain ⟨t, ht⟩ := h
      rcases List.append_eq_nil.mp ht.symm with ⟨rfl, -⟩
      exact prefixP_nils _
    | cons c rest =>
      simp only [replaceFuel] at h
      split at h
      · cases tok with
        | nil => exact prefixP_nils _
        | cons t tok2 =>
          obtain ⟨h1, -⟩ := prefixP_cons_elim h
          exact absurd (h1 ▸ List.mem_cons_self t tok2) hd
      · cases tok with
        | nil => exact prefixP_nils _
        | cons t tok2 =>
          obtain ⟨h1, h2⟩ := prefixP_cons_elim h
          have hd2 : '-' ∉ tok2 := fun hm => hd (List.mem_cons_of_mem t hm)
          obtain ⟨s, hs⟩ := ih rest tok2 hd2 h2
          exact ⟨s, by rw [h1, hs]; rfl⟩

theorem replaceFuel_occurs_pullback (p : Char) (pat : List Char) :
    ∀ (fuel : Nat) (l tok : List Char), tok ≠ [] → '-' ∉ tok →
      occursIn tok (replaceFuel p pat ['-'] fuel l) → occursIn tok l := by
  intro fuel
  induction fuel with
  | zero =>
    intro l tok hne _ h
    cases l with
    | nil => exact absurd (occursIn_of_nil (by simpa [replaceFuel] using h)) hne
    | cons c rest => exact h
  | succ f ih =>
    intro l tok hne hd h
    cases l with
    | nil => exact absurd (occursIn_of_nil (by simpa [replaceFuel] using h)) hne
    | cons c rest =>
      simp only [replaceFuel] at h
      split at h
      · rcases occursIn_cons_elim h with hp | ho
        · cases tok with
          | nil => exact absurd rfl hne
          | cons t tok2 =>
            obtain ⟨h1, -⟩ := prefixP_cons_elim hp
            exact absurd (h1 ▸ List.mem_cons_self t tok2) hd
        · have := ih _ tok hne hd ho
          have hsplit := List.take_append_drop (p :: pat).length (c :: rest)
          rw [← hsplit]
          exact occursIn_append_of _ this
      · rcases occursIn_cons_elim h with hp | ho
        · exact occursIn_of_prefixP (replaceFuel_prefix_pullback p pat (f + 1) (c :: rest) tok hd
            (by simp only [replaceFuel, *]; exact hp))
        · exact occursIn_cons_of c (ih rest tok hne hd ho)

theorem spanToClose_some :
    ∀ {l pre post : List Char}, spanToClose l = some (pre, post) →
      l = pre ++ '\x7d' :: post ∧ '\x7d' ∉ pre := by
  intro l
  induction l with
  | nil => intro pre post h; cases h
  | cons c rest ih =>
    intro pre post h
    unfold spanToClose at h
    split at h
    · next hc =>
      cases Option.some.inj h
      subst hc
      exact ⟨rfl, by simp⟩
    · next hc =>
      split at h
      · next pre2 post2 heq =>
        cases Option.some.inj h
        obtain ⟨h1, h2⟩ := ih heq
        refine ⟨by rw [List.cons_append, ← h1], ?_⟩
        intro hm
        rcases List.mem_cons.mp hm with hm1 | hm2
        · exact hc hm1.symm
        · exact h2 hm2
      · cases h

theorem spanToClose_none :
    ∀ {l : List Char}, spanToClose l = none → '\x7d' ∉ l := by
  intro l
  induction l with
  | nil => intro _ hm; cases hm
  | cons c rest ih =>
    intro h hm
    unfold spanToClose at h
    split at h
    · cases h
    · next hc =>
      split at h
      · cases h
      · next heq =>
        rcases List.mem_cons.mp hm with hm1 | hm2
        · exact hc hm1.symm
        · exact ih heq hm2

theorem stripPhFuel_mem {x : Char} :
    ∀ (fuel : Nat) (l : List Char), x ∈ stripPhFuel fuel l → x ∈ l := by
  intro fuel
  induction fuel with
  | zero => intro l h; exact h
  | succ f ih =>
    intro l h
    cases l with
    | nil => exact h
    | cons c rest =>
      simp only [stripPhFuel] at h
      split at h
      · split at h
        · next pre post heq =>
          split at h
          · rcases List.mem_cons.mp h with h1 | h2
            · exact List.mem_cons.mpr (Or.inl h1)
            · exact List.mem_cons.mpr (Or.inr (ih rest h2))
          · have h1 := (spanToClose_some heq).1
            have h2 := ih post h
            rw [h1]
            exact List.mem_cons.mpr (Or.inr (List.mem_append_right pre (List.mem_cons.mpr (Or.inr h2))))
        · rcases List.mem_cons.mp h with h1 | h2
          · exact List.mem_cons.mpr (Or.inl h1)
          · exact List.mem_cons.mpr (Or.inr (ih rest h2))
      · rcases List.mem_cons.mp h with h1 | h2
        · exact List.mem_cons.mpr (Or.inl h1)
        · exact List.mem_cons.mpr (Or.inr (ih rest h2))

theorem stripPhFuel_no_placeholder {key : List Char} (hne : key ≠ []) (hnc : '\x7d' ∉ key) :
    ∀ (fuel : Nat) (l : List Char), l.length ≤ fuel →
      ¬ occursIn ('\x7b' :: (key ++ ['\x7d'])) (stripPhFuel fuel l) := by
  intro fuel
  induction fuel using Nat.strong_induction_on with
  | _ fuel ih =>
    intro l hlen hocc
    match fuel, l with
    | 0, l =>
      have : l = [] := List.length_eq_zero.mp (Nat.le_zero.mp hlen)
      subst this
      exact absurd (occursIn_of_nil hocc) (by simp)
    | f + 1, [] =>
      exact absurd (occursIn_of_nil hocc) (by simp)
    | f + 1, c :: rest =>
      simp only [stripPhFuel] at hocc
      by_cases hc : c = '\x7b'
      · rw [if_pos hc] at hocc
        cases hs : spanToClose rest with
        | some pp =>
          obtain ⟨pre, post⟩ := pp
          rw [hs] at hocc
          dsimp only at hocc
          obtain ⟨hrest, hprenc⟩ := spanToClose_some hs
          by_cases hpre : pre.isEmpty
          · rw [if_pos hpre] at hocc
            have hpre2 : pre = [] := by
              cases pre with
              | nil => rfl
              | cons a b => simp [List.isEmpty] at hpre
            subst hpre2
            simp only [List.nil_append] at hrest
            subst hrest
            have hfl : post.length + 1 ≤ f := by
              simpa using Nat.le_of_succ_le_succ hlen
            match f, hfl with
            | f2 + 1, hfl =>
              have hstep : stripPhFuel (f2 + 1) ('\x7d' :: post) =
                  '\x7d' :: stripPhFuel f2 post := by
                simp [stripPhFuel]
              rw [hstep] at hocc
              rcases occursIn_cons_elim hocc with hp | hocc2
              · obtain ⟨-, hp2⟩ := prefixP_cons_elim hp
                cases key with
                | nil => exact hne rfl
                | cons k key2 =>
                  obtain ⟨hk, -⟩ := prefixP_cons_elim (by simpa using hp2)
                  exact hnc (hk ▸ List.mem_cons_self k key2)
              · rcases occursIn_cons_elim hocc2 with hp | hocc3
                · obtain ⟨hk, -⟩ := prefixP_cons_elim hp
                  exact absurd hk (by decide)
                · exact ih f2 (by omega) post (by omega) hocc3
          · rw [if_neg hpre] at hocc
            have hplen : post.length + 1 ≤ rest.length := by
              rw [hrest]
              cases pre with
              | nil => simp [List.isEmpty] at hpre
              | cons a b => simp; omega
            exact ih f (by omega) post (by simp at hlen; omega) hocc
        | none =>
          rw [hs] at hocc
          rcases occursIn_cons_elim hocc with hp | hocc2
          · obtain ⟨-, hp2⟩ := prefixP_cons_elim hp
            have hmem : '\x7d' ∈ stripPhFuel f rest :=
              mem_of_prefixP (List.mem_append_right key (List.mem_cons_self _ _)) hp2
            exact spanToClose_none hs (stripPhFuel_mem f rest hmem)
          · exact ih f (by omega) rest (by simp at hlen; omega) hocc2
      · rw [if_neg hc] at hocc
        rcases occursIn_cons_elim hocc with hp | hocc2
        · obtain ⟨hk, -⟩ := prefixP_cons_elim hp
          exact hc hk.symm
        · exact ih f (by omega) rest (by simp at hlen; omega) hocc2

theorem pyReplace_space_data (s : String) :
    (pyReplace s " " "-").data = replaceFuel ' ' [] ['-'] s.data.length s.data := rfl

theorem pyReplace_dash_data (s : String) :
    (pyReplace s "--" "-").data = replaceFuel '-' ['-'] ['-'] s.data.length s.data := rfl

theorem stripPlaceholders_data (s : String) :
    (stripPlaceholders s).data = stripPhFuel s.data.length s.data := rfl

theorem fillPattern_no_space (pattern : String) (comps : List (String × String)) :
    ' ' ∉ (fillPattern pattern comps).data := by
  unfold fillPattern
  dsimp only
  rw [pyReplace_space_data]
  exact replaceFuel_space_no_space _ _ le_rfl

theorem fillPattern_no_placeholder (pattern : String) (comps : List (String × String))
    {key : List Char} (hne : key ≠ []) (h7d : '\x7d' ∉ key) (hdash : '-' ∉ key) :
    ¬ occursIn ('\x7b' :: (key ++ ['\x7d'])) (fillPattern pattern comps).data := by
  intro hocc
  unfold fillPattern at hocc
  dsimp only at hocc
  rw [pyReplace_space_data] at hocc
  have tokne : ('\x7b' :: (key ++ ['\x7d'])) ≠ [] := by simp
  have tokdash : '-' ∉ ('\x7b' :: (key ++ ['\x7d'])) := by
    intro hm
    rcases List.mem_cons.mp hm with h1 | h2
    · exact absurd h1 (by decide)
    · rcases List.mem_append.mp h2 with h3 | h4
      · exact hdash h3
      · rw [List.mem_singleton] at h4
        exact absurd h4 (by decide)
  have h1 := replaceFuel_occurs_pullback ' ' [] _ _ _ tokne tokdash hocc
  rw [pyReplace_dash_data] at h1
  have h2 := replaceFuel_occurs_pullback '-' ['-'] _ _ _ tokne tokdash h1
  rw [stripPlaceholders_data] at h2
  exact stripPhFuel_no_placeholder hne h7d _ _ le_rfl h2

/-- C9 (counterexample): for the DJI drone video template with the
resolution, fps and duration components all absent (an unusable metadata
bag), the synthesized filename is `20230615-143022--DJI-Mavic3Pro.mp4`,
which contains a run of two dashes: the single-pass `replace('--', '-')`
turns the four adjacent dashes left by three stripped placeholders into two,
not one. -/
theorem claim_C9_counterexample :
    generateNewFilename "DJI_20230615143022_0007_D.mp4" (mkBag [("SourceFile", MetaVal.str "x")])
        (some "dji_drone") (some "video") "20230615" "143022" =
      some "20230615-143022--DJI-Mavic3Pro.mp4" ∧
    occursIn "--".data "20230615-143022--DJI-Mavic3Pro.mp4".data := by
  refine ⟨by decide, ⟨"20230615-143022".data, "DJI-Mavic3Pro.mp4".data, by decide⟩⟩

/-- C9 (amended): for every device/media pair and components map, the filled
template contains no space and no `{placeholder}` token for any placeholder
name; runs of dashes, however, are only halved by the single `'--'→'-'`
pass, so two or more adjacent absent components can leave a double dash (see
the counterexample). -/
theorem claim_C9_no_space_no_placeholder :
    ∀ (device media : Option String) (comps : List (String × String)),
      ' ' ∉ (fillPattern (FILENAME_PATTERNS device media) comps).data ∧
      ∀ key ∈ placeholderKeys,
        ¬ occursIn (phTok key) (fillPattern (FILENAME_PATTERNS device media) comps).data := by
  intro device media comps
  refine ⟨fillPattern_no_space _ _, ?_⟩
  intro key hk
  have hprops : key.data ≠ [] ∧ '\x7d' ∉ key.data ∧ '-' ∉ key.data := by
    fin_cases hk <;> exact ⟨by decide, by decide, by decide⟩
  exact fillPattern_no_placeholder _ _ hprops.1 hprops.2.1 hprops.2.2

/-- C9 (witness): the amended statement applied to the drone video template
with a one-entry components map and the `date` placeholder. -/
theorem claim_C9_witness :
    ' ' ∉ (fillPattern (FILENAME_PATTERNS (some "dji_drone") (some "video"))
      [("date", "20230615")]).data ∧
    ¬ occursIn (phTok "date")
      (fillPattern (FILENAME_PATTERNS (some "dji_drone") (some "video"))
        [("date", "20230615")]).data :=
  ⟨(claim_C9_no_space_no_placeholder (some "dji_drone") (some "video") [("date", "20230615")]).1,
   (claim_C9_no_space_no_placeholder (some "dji_drone") (some "video") [("date", "20230615")]).2
     "date" (by decide)⟩

end Media
